import Mathlib

/-!
Verification of the DIEM provisioning prototype
(`prototype/provisioning/createjwt.py` and `prototype/provisioning/dns_update.py`).

The Python sources are shallowly embedded:

* Python `str` is modelled by Lean `String` (a sequence of unicode scalar
  values; Python `len`/slicing count code points, matching `String.data.length`).
* Python `bytes` is modelled by `List Nat` with every entry `< 256`.
* `base64.urlsafe_b64encode` / `urlsafe_b64decode` are modelled byte-exactly
  (`b64EncGroups` / `b64DecGroups`); `str.encode('utf-8')` / `bytes.decode('utf-8')`
  by `utf8EncodeList` / `utf8DecodeList`.
* `json.dumps(..., separators=(',',':'))` (with its default `ensure_ascii=True`
  escaping) and `json.loads` are modelled by `dumpsVal` / `loads` over an
  inductive `Json` type.  The model covers JSON values built from `null`,
  booleans, integers, strings, arrays and string-keyed objects — the shape of
  claim records in this repository; floats and inter-token whitespace are
  outside the model.
* Fallible Python code returns `Option` / `Except PyExc`; raised exceptions
  become `.error` values tagged with the Python exception class.
-/

namespace Diem

/-! ## Python string helpers -/

/-- Python `s.split(sep)` on a list of characters (`''.split(sep) = ['']`). -/
def pySplit (sep : Char) : List Char → List (List Char)
  | [] => [[]]
  | c :: rest =>
    let r := pySplit sep rest
    if c = sep then [] :: r
    else
      match r with
      | x :: xs => (c :: x) :: xs
      | [] => [[c]]

/-- Python `s.split(sep, maxsplit=1)` on a list of characters. -/
def pySplitMax1 (sep : Char) : List Char → List (List Char)
  | [] => [[]]
  | c :: rest =>
    if c = sep then [[], rest]
    else
      match pySplitMax1 sep rest with
      | x :: xs => (c :: x) :: xs
      | [] => [[c]]

/-- First component of Python `s.split(sep, maxsplit=1)` when `sep` occurs;
`none` when it does not (so tuple-unpacking two names raises `ValueError`). -/
def splitFirst (sep : Char) : List Char → Option (List Char × List Char)
  | [] => none
  | c :: rest =>
    if c = sep then some ([], rest)
    else (splitFirst sep rest).map fun p => (c :: p.1, p.2)

/-- Python whitespace characters recognised by `str.strip()`. -/
def isPySpace (c : Char) : Bool :=
  c = ' ' ∨ c = '\t' ∨ c = '\n' ∨ c = '\r' ∨ c = Char.ofNat 11 ∨ c = Char.ofNat 12

/-- Python `s.strip()`. -/
def pyStrip (s : String) : String :=
  ⟨((s.data.dropWhile isPySpace).reverse.dropWhile isPySpace).reverse⟩

/-! ## base64url (model of `base64.urlsafe_b64encode` / `urlsafe_b64decode`) -/

/-- Character of the urlsafe base64 alphabet for a 6-bit value. -/
def b64Char (v : Nat) : Char :=
  if v < 26 then Char.ofNat (65 + v)
  else if v < 52 then Char.ofNat (97 + (v - 26))
  else if v < 62 then Char.ofNat (48 + (v - 52))
  else if v = 62 then '-'
  else '_'

/-- Value of a urlsafe base64 alphabet character. -/
def b64Val (c : Char) : Option Nat :=
  if 'A' ≤ c ∧ c ≤ 'Z' then some (c.toNat - 65)
  else if 'a' ≤ c ∧ c ≤ 'z' then some (c.toNat - 97 + 26)
  else if '0' ≤ c ∧ c ≤ '9' then some (c.toNat - 48 + 52)
  else if c = '-' then some 62
  else if c = '_' then some 63
  else none

/-- Model of `base64.urlsafe_b64encode`: bytes to padded base64 text. -/
def b64EncGroups : List Nat → List Char
  | b0 :: b1 :: b2 :: rest =>
    b64Char (b0 / 4) :: b64Char (b0 % 4 * 16 + b1 / 16) ::
      b64Char (b1 % 16 * 4 + b2 / 64) :: b64Char (b2 % 64) :: b64EncGroups rest
  | [b0, b1] => [b64Char (b0 / 4), b64Char (b0 % 4 * 16 + b1 / 16), b64Char (b1 % 16 * 4), '=']
  | [b0] => [b64Char (b0 / 4), b64Char (b0 % 4 * 16), '=', '=']
  | [] => []

/-- Model of `base64.urlsafe_b64decode` on correctly padded input: the input is
consumed four characters at a time, `'='` padding allowed only at the end.
(The CPython decoder also discards characters outside the alphabet before
decoding; that laxity is irrelevant here because `jwt_base64decode` validates
segment lengths before this step and all claims feed alphabet characters.) -/
def b64DecGroups : List Char → Option (List Nat)
  | [] => some []
  | c1 :: c2 :: c3 :: c4 :: rest =>
    match b64Val c1, b64Val c2 with
    | some v1, some v2 =>
      if c3 = '=' then
        if c4 = '=' ∧ rest = [] then some [v1 * 4 + v2 / 16] else none
      else
        match b64Val c3 with
        | some v3 =>
          if c4 = '=' then
            if rest = [] then some [v1 * 4 + v2 / 16, v2 % 16 * 16 + v3 / 4] else none
          else
            match b64Val c4 with
            | some v4 =>
              match b64DecGroups rest with
              | some bs =>
                some ((v1 * 4 + v2 / 16) :: (v2 % 16 * 16 + v3 / 4) :: (v3 % 4 * 64 + v4) :: bs)
              | none => none
            | none => none
        | none => none
    | _, _ => none
  | _ => none

/-- Python `s.rstrip(b'=')` used by `jwt_base64encode`. -/
def stripEq (l : List Char) : List Char :=
  (l.reverse.dropWhile (fun c => c = '=')).reverse

/-- Padding restoration of `jwt_base64decode` (createjwt.py lines 16-25):
remainder 0 keeps the string, 2 appends `'=='`, 3 appends `'='`, and
remainder 1 raises `ValueError` (modelled as `none`). -/
def repad (l : List Char) : Option (List Char) :=
  if l.length % 4 = 0 then some l
  else if l.length % 4 = 2 then some (l ++ ['=', '='])
  else if l.length % 4 = 3 then some (l ++ ['='])
  else none

theorem b64Val_b64Char : ∀ v, v < 64 → b64Val (b64Char v) = some v := by decide

theorem b64Char_ne_pad : ∀ v, v < 64 → b64Char v ≠ '=' := by decide

theorem b64Char_ne_dot : ∀ v, v < 64 → b64Char v ≠ '.' := by decide

theorem b64DecGroups_enc (bs : List Nat) (h : ∀ b ∈ bs, b < 256) :
    b64DecGroups (b64EncGroups bs) = some bs := by
  induction bs using b64EncGroups.induct with
  | case1 b0 b1 b2 rest ih =>
    have h0 : b0 < 256 := h b0 (by simp)
    have h1 : b1 < 256 := h b1 (by simp)
    have h2 : b2 < 256 := h b2 (by simp)
    have ih' := ih (fun b hb => h b (by simp [hb]))
    have r1 := b64Val_b64Char (b0 / 4) (by omega)
    have r2 := b64Val_b64Char (b0 % 4 * 16 + b1 / 16) (by omega)
    have r3 := b64Val_b64Char (b1 % 16 * 4 + b2 / 64) (by omega)
    have r4 := b64Val_b64Char (b2 % 64) (by omega)
    have n3 := b64Char_ne_pad (b1 % 16 * 4 + b2 / 64) (by omega)
    have n4 := b64Char_ne_pad (b2 % 64) (by omega)
    have e0 : b0 / 4 * 4 + (b0 % 4 * 16 + b1 / 16) / 16 = b0 := by omega
    have e1 : (b0 % 4 * 16 + b1 / 16) % 16 * 16 + (b1 % 16 * 4 + b2 / 64) / 4 = b1 := by omega
    have e2 : (b1 % 16 * 4 + b2 / 64) % 4 * 64 + b2 % 64 = b2 := by omega
    simp [b64EncGroups, b64DecGroups, r1, r2, r3, r4, n3, n4, ih', e0, e1, e2]
  | case2 b0 b1 =>
    have h0 : b0 < 256 := h b0 (by simp)
    have h1 : b1 < 256 := h b1 (by simp)
    have r1 := b64Val_b64Char (b0 / 4) (by omega)
    have r2 := b64Val_b64Char (b0 % 4 * 16 + b1 / 16) (by omega)
    have r3 := b64Val_b64Char (b1 % 16 * 4) (by omega)
    have n3 := b64Char_ne_pad (b1 % 16 * 4) (by omega)
    have e0 : b0 / 4 * 4 + (b0 % 4 * 16 + b1 / 16) / 16 = b0 := by omega
    have e1 : (b0 % 4 * 16 + b1 / 16) % 16 * 16 + b1 % 16 * 4 / 4 = b1 := by omega
    simp [b64EncGroups, b64DecGroups, r1, r2, r3, n3, e0]
    omega
  | case3 b0 =>
    have h0 : b0 < 256 := h b0 (by simp)
    have r1 := b64Val_b64Char (b0 / 4) (by omega)
    have r2 := b64Val_b64Char (b0 % 4 * 16) (by omega)
    have e0 : b0 / 4 * 4 + b0 % 4 * 16 / 16 = b0 := by omega
    simp [b64EncGroups, b64DecGroups, r1, r2]
    omega
  | case4 => simp [b64EncGroups, b64DecGroups]

theorem stripEq_append_of_ne_nil (xs ys : List Char) (h : stripEq ys ≠ []) :
    stripEq (xs ++ ys) = xs ++ stripEq ys := by
  unfold stripEq at *
  have hd : ¬ (ys.reverse.dropWhile (fun c => c = '=')).isEmpty := by
    intro hc
    exact h (by simp [List.isEmpty_iff.mp hc])
  rw [List.reverse_append, List.dropWhile_append, if_neg hd]
  simp

theorem repad_append_four (g : List Char) (hg : g.length = 4) (s e : List Char)
    (h : repad s = some e) : repad (g ++ s) = some (g ++ e) := by
  unfold repad at h ⊢
  have hl : (g ++ s).length % 4 = s.length % 4 := by
    simp [hg]
  rw [hl]
  by_cases h0 : s.length % 4 = 0
  · simp [h0] at h ⊢
    rw [h]
  · by_cases h2 : s.length % 4 = 2
    · simp [h0, h2] at h ⊢
      rw [← h]
    · by_cases h3 : s.length % 4 = 3
      · simp [h0, h2, h3] at h ⊢
        rw [← h]
      · simp [h0, h2, h3] at h

theorem b64EncGroups_ne_nil (bs : List Nat) (h : bs ≠ []) : b64EncGroups bs ≠ [] := by
  match bs with
  | [] => exact absurd rfl h
  | [b0] => simp [b64EncGroups]
  | [b0, b1] => simp [b64EncGroups]
  | b0 :: b1 :: b2 :: rest => simp [b64EncGroups]

theorem repad_stripEq_enc (bs : List Nat) (h : ∀ b ∈ bs, b < 256) :
    repad (stripEq (b64EncGroups bs)) = some (b64EncGroups bs) := by
  induction bs using b64EncGroups.induct with
  | case1 b0 b1 b2 rest ih =>
    have h2 : b2 < 256 := h b2 (by simp)
    have ih' := ih (fun b hb => h b (by simp [hb]))
    by_cases hrest : rest = []
    · subst hrest
      have n4 := b64Char_ne_pad (b2 % 64) (by omega)
      simp [b64EncGroups, stripEq, List.dropWhile, n4, repad]
    · have henc : b64EncGroups rest ≠ [] := b64EncGroups_ne_nil rest hrest
      have hs : stripEq (b64EncGroups rest) ≠ [] := by
        intro hc
        rw [hc] at ih'
        simp [repad] at ih'
        exact henc ih'
      have hsplit : b64EncGroups (b0 :: b1 :: b2 :: rest) =
          [b64Char (b0 / 4), b64Char (b0 % 4 * 16 + b1 / 16),
            b64Char (b1 % 16 * 4 + b2 / 64), b64Char (b2 % 64)] ++ b64EncGroups rest := rfl
      rw [hsplit, stripEq_append_of_ne_nil _ _ hs]
      refine repad_append_four _ ?_ _ _ ih'
      rfl
  | case2 b0 b1 =>
    have h1 : b1 < 256 := h b1 (by simp)
    have n3 := b64Char_ne_pad (b1 % 16 * 4) (by omega)
    simp [b64EncGroups, stripEq, List.dropWhile, n3, repad]
  | case3 b0 =>
    have h0 : b0 < 256 := h b0 (by simp)
    have n2 := b64Char_ne_pad (b0 % 4 * 16) (by omega)
    simp [b64EncGroups, stripEq, List.dropWhile, n2, repad]
  | case4 => simp [b64EncGroups, stripEq, repad]

/-! ## UTF-8 (model of Python `str.encode('utf-8')` / `bytes.decode('utf-8')`) -/

/-- UTF-8 encoding of one unicode scalar value. -/
def utf8EncodeChar (c : Char) : List Nat :=
  let v := c.toNat
  if v < 0x80 then [v]
  else if v < 0x800 then [0xc0 + v / 0x40, 0x80 + v % 0x40]
  else if v < 0x10000 then [0xe0 + v / 0x1000, 0x80 + v / 0x40 % 0x40, 0x80 + v % 0x40]
  else [0xf0 + v / 0x40000, 0x80 + v / 0x1000 % 0x40, 0x80 + v / 0x40 % 0x40, 0x80 + v % 0x40]

/-- Model of Python `s.encode('utf-8')`. -/
def utf8EncodeList : List Char → List Nat
  | [] => []
  | c :: cs => utf8EncodeChar c ++ utf8EncodeList cs

/-- Strict UTF-8 decoding (model of `bytes.decode('utf-8')`, which raises on
overlong, truncated, surrogate, or out-of-range sequences — modelled as `none`).
The fuel argument only drives the recursion; one unit is spent per decoded
character, so fuel equal to the byte count always suffices. -/
def utf8DecGo : Nat → List Nat → Option (List Char)
  | _, [] => some []
  | 0, _ :: _ => none
  | f + 1, b :: rest =>
    if b < 0x80 then (utf8DecGo f rest).map fun cs => Char.ofNat b :: cs
    else if b < 0xc2 then none
    else if b < 0xe0 then
      match rest with
      | b1 :: r =>
        if 0x80 ≤ b1 ∧ b1 < 0xc0 then
          (utf8DecGo f r).map fun cs => Char.ofNat ((b - 0xc0) * 0x40 + (b1 - 0x80)) :: cs
        else none
      | [] => none
    else if b < 0xf0 then
      match rest with
      | b1 :: b2 :: r =>
        if 0x80 ≤ b1 ∧ b1 < 0xc0 ∧ 0x80 ≤ b2 ∧ b2 < 0xc0 then
          let v := (b - 0xe0) * 0x1000 + (b1 - 0x80) * 0x40 + (b2 - 0x80)
          if 0x800 ≤ v ∧ ¬(0xd800 ≤ v ∧ v < 0xe000) then
            (utf8DecGo f r).map fun cs => Char.ofNat v :: cs
          else none
        else none
      | _ => none
    else if b < 0xf5 then
      match rest with
      | b1 :: b2 :: b3 :: r =>
        if 0x80 ≤ b1 ∧ b1 < 0xc0 ∧ 0x80 ≤ b2 ∧ b2 < 0xc0 ∧ 0x80 ≤ b3 ∧ b3 < 0xc0 then
          let v := (b - 0xf0) * 0x40000 + (b1 - 0x80) * 0x1000 + (b2 - 0x80) * 0x40 + (b3 - 0x80)
          if 0x10000 ≤ v ∧ v < 0x110000 then
            (utf8DecGo f r).map fun cs => Char.ofNat v :: cs
          else none
        else none
      | _ => none
    else none

/-- Model of Python `bytes.decode('utf-8')`. -/
def utf8DecodeList (bs : List Nat) : Option (List Char) :=
  utf8DecGo bs.length bs

theorem char_valid_nat (c : Char) :
    c.toNat < 0xd800 ∨ (0xdfff < c.toNat ∧ c.toNat < 0x110000) := by
  have hv := c.valid
  exact hv

theorem utf8EncodeChar_lt (c : Char) : ∀ b ∈ utf8EncodeChar c, b < 256 := by
  have hv := char_valid_nat c
  unfold utf8EncodeChar
  by_cases h1 : c.toNat < 0x80
  · simp [h1]; omega
  · by_cases h2 : c.toNat < 0x800
    · simp [h1, h2]; omega
    · by_cases h3 : c.toNat < 0x10000
      · simp [h1, h2, h3]; omega
      · simp [h1, h2, h3]; omega

theorem utf8EncodeList_lt (cs : List Char) : ∀ b ∈ utf8EncodeList cs, b < 256 := by
  induction cs with
  | nil => simp [utf8EncodeList]
  | cons c cs ih =>
    intro b hb
    simp only [utf8EncodeList, List.mem_append] at hb
    rcases hb with hb | hb
    · exact utf8EncodeChar_lt c b hb
    · exact ih b hb

theorem utf8DecGo_enc (cs : List Char) : ∀ f, cs.length ≤ f →
    utf8DecGo f (utf8EncodeList cs) = some cs := by
  induction cs with
  | nil =>
    intro f _
    cases f <;> simp [utf8EncodeList, utf8DecGo]
  | cons c cs ih =>
    intro f hf
    match f, hf with
    | f + 1, hf =>
      have hcs : cs.length ≤ f := by simp at hf; omega
      have ih' := ih f hcs
      have hv := char_valid_nat c
      by_cases h1 : c.toNat < 0x80
      · have he : utf8EncodeList (c :: cs) = c.toNat :: utf8EncodeList cs := by
          simp [utf8EncodeList, utf8EncodeChar, h1]
        rw [he]
        simp [utf8DecGo, h1, ih', Char.ofNat_toNat]
      · by_cases h2 : c.toNat < 0x800
        · have he : utf8EncodeList (c :: cs) =
              (0xc0 + c.toNat / 0x40) :: (0x80 + c.toNat % 0x40) :: utf8EncodeList cs := by
            simp [utf8EncodeList, utf8EncodeChar, h1, h2]
          rw [he]
          have c1 : ¬ (0xc0 + c.toNat / 0x40 < 0x80) := by omega
          have c2 : ¬ (0xc0 + c.toNat / 0x40 < 0xc2) := by omega
          have c3 : 0xc0 + c.toNat / 0x40 < 0xe0 := by omega
          have c4 : 0x80 ≤ 0x80 + c.toNat % 0x40 := by omega
          have c5 : 0x80 + c.toNat % 0x40 < 0xc0 := by omega
          have ev : c.toNat / 0x40 * 0x40 + c.toNat % 0x40 = c.toNat := by omega
          simp [utf8DecGo, c1, c2, c3, c4, c5, ev, ih', Char.ofNat_toNat]
        · by_cases h3 : c.toNat < 0x10000
          · have he : utf8EncodeList (c :: cs) =
                (0xe0 + c.toNat / 0x1000) :: (0x80 + c.toNat / 0x40 % 0x40) ::
                  (0x80 + c.toNat % 0x40) :: utf8EncodeList cs := by
              simp [utf8EncodeList, utf8EncodeChar, h1, h2, h3]
            rw [he]
            have c1 : ¬ (0xe0 + c.toNat / 0x1000 < 0x80) := by omega
            have c2 : ¬ (0xe0 + c.toNat / 0x1000 < 0xc2) := by omega
            have c3 : ¬ (0xe0 + c.toNat / 0x1000 < 0xe0) := by omega
            have c4 : 0xe0 + c.toNat / 0x1000 < 0xf0 := by omega
            have c5 : 0x80 ≤ 0x80 + c.toNat / 0x40 % 0x40 := by omega
            have c6 : 0x80 + c.toNat / 0x40 % 0x40 < 0xc0 := by omega
            have c7 : 0x80 ≤ 0x80 + c.toNat % 0x40 := by omega
            have c8 : 0x80 + c.toNat % 0x40 < 0xc0 := by omega
            have ev : c.toNat / 0x1000 * 0x1000 + c.toNat / 0x40 % 0x40 * 0x40 +
                c.toNat % 0x40 = c.toNat := by omega
            simp [utf8DecGo, c1, c2, c3, c4, c5, c6, c7, c8, ev, ih', Char.ofNat_toNat]
            omega
          · have he : utf8EncodeList (c :: cs) =
                (0xf0 + c.toNat / 0x40000) :: (0x80 + c.toNat / 0x1000 % 0x40) ::
                  (0x80 + c.toNat / 0x40 % 0x40) :: (0x80 + c.toNat % 0x40) ::
                    utf8EncodeList cs := by
              simp [utf8EncodeList, utf8EncodeChar, h1, h2, h3]
            rw [he]
            have hub : c.toNat < 0x110000 := by omega
            have c1 : ¬ (0xf0 + c.toNat / 0x40000 < 0x80) := by omega
            have c2 : ¬ (0xf0 + c.toNat / 0x40000 < 0xc2) := by omega
            have c3 : ¬ (0xf0 + c.toNat / 0x40000 < 0xe0) := by omega
            have c4 : ¬ (0xf0 + c.toNat / 0x40000 < 0xf0) := by omega
            have c5 : 0xf0 + c.toNat / 0x40000 < 0xf5 := by omega
            have c6 : 0x80 ≤ 0x80 + c.toNat / 0x1000 % 0x40 := by omega
            have c7 : 0x80 + c.toNat / 0x1000 % 0x40 < 0xc0 := by omega
            have c8 : 0x80 ≤ 0x80 + c.toNat / 0x40 % 0x40 := by omega
            have c9 : 0x80 + c.toNat / 0x40 % 0x40 < 0xc0 := by omega
            have c10 : 0x80 ≤ 0x80 + c.toNat % 0x40 := by omega
            have c11 : 0x80 + c.toNat % 0x40 < 0xc0 := by omega
            have ev : c.toNat / 0x40000 * 0x40000 + c.toNat / 0x1000 % 0x40 * 0x1000 +
                c.toNat / 0x40 % 0x40 * 0x40 + c.toNat % 0x40 = c.toNat := by omega
            simp [utf8DecGo, c1, c2, c3, c4, c5, c6, c7, c8, c9, c10, c11, ev, ih',
              Char.ofNat_toNat]
            all_goals omega

theorem utf8EncodeList_length_ge (cs : List Char) : cs.length ≤ (utf8EncodeList cs).length := by
  induction cs with
  | nil => simp [utf8EncodeList]
  | cons c cs ih =>
    have hne : 1 ≤ (utf8EncodeChar c).length := by
      unfold utf8EncodeChar
      by_cases h1 : c.toNat < 0x80
      · simp [h1]
      · by_cases h2 : c.toNat < 0x800
        · simp [h1, h2]
        · by_cases h3 : c.toNat < 0x10000
          · simp [h1, h2, h3]
          · simp [h1, h2, h3]
    simp only [utf8EncodeList, List.length_append, List.length_cons]
    omega

theorem utf8DecodeList_enc (cs : List Char) :
    utf8DecodeList (utf8EncodeList cs) = some cs := by
  unfold utf8DecodeList
  exact utf8DecGo_enc cs _ (utf8EncodeList_length_ge cs)

/-! ## JSON values

Model of the JSON documents handled by `json.dumps` / `json.loads` in
`createjwt.py`.  Claim records are string-keyed mappings whose values are
strings, integers, booleans, null, or nested arrays/objects (spec section 3);
floats are outside the model.  Arrays and objects are modelled positionally,
matching Python dict insertion order on both `dumps` and `loads`. -/

mutual

inductive Json where
  | null : Json
  | bool : Bool → Json
  | num : Int → Json
  | str : String → Json
  | arr : JsonArr → Json
  | obj : JsonObj → Json

inductive JsonArr where
  | nil : JsonArr
  | cons : Json → JsonArr → JsonArr

inductive JsonObj where
  | nil : JsonObj
  | cons : String → Json → JsonObj → JsonObj

end

/-! ## JSON serialization (model of `json.dumps(..., separators=(',',':'))`) -/

/-- Decimal digit character. -/
def digitChar (d : Nat) : Char := Char.ofNat (48 + d)

/-- Decimal digit value. -/
def digVal (c : Char) : Option Nat :=
  if '0' ≤ c ∧ c ≤ '9' then some (c.toNat - 48) else none

/-- Fuel-driven decimal printer; the wrapper `natDigs` always supplies enough
fuel, see `natDigs_eq`. -/
def natDigsGo : Nat → Nat → List Char
  | 0, _ => []
  | f + 1, n => if n < 10 then [digitChar n] else natDigsGo f (n / 10) ++ [digitChar (n % 10)]

/-- Decimal representation of a natural number (Python `str(n)` for `n ≥ 0`). -/
def natDigs (n : Nat) : List Char := natDigsGo (n + 1) n

/-- Python `str(n)` for an integer. -/
def dumpInt (n : Int) : List Char :=
  if n < 0 then '-' :: natDigs n.natAbs else natDigs n.toNat

/-- Lowercase hexadecimal digit character. -/
def toHexDig (d : Nat) : Char := if d < 10 then Char.ofNat (48 + d) else Char.ofNat (87 + d)

/-- Hexadecimal digit value (both cases, as accepted by `json.loads`). -/
def hexVal (c : Char) : Option Nat :=
  if '0' ≤ c ∧ c ≤ '9' then some (c.toNat - 48)
  else if 'a' ≤ c ∧ c ≤ 'f' then some (c.toNat - 97 + 10)
  else if 'A' ≤ c ∧ c ≤ 'F' then some (c.toNat - 65 + 10)
  else none

/-- Four lowercase hex digits, as emitted by `json.dumps` for `\uXXXX`. -/
def toHex4 (v : Nat) : List Char :=
  [toHexDig (v / 4096 % 16), toHexDig (v / 256 % 16), toHexDig (v / 16 % 16), toHexDig (v % 16)]

/-- Escaping of one string character by `json.dumps` with its default
`ensure_ascii=True`: `"` and `\` get short escapes, the control characters
with dedicated JSON escapes use them, every other character outside
`0x20..0x7e` becomes `\uXXXX` (a surrogate pair for astral characters). -/
def escChar (c : Char) : List Char :=
  if c = '"' then ['\\', '"']
  else if c = '\\' then ['\\', '\\']
  else if c.toNat = 8 then ['\\', 'b']
  else if c.toNat = 9 then ['\\', 't']
  else if c.toNat = 10 then ['\\', 'n']
  else if c.toNat = 12 then ['\\', 'f']
  else if c.toNat = 13 then ['\\', 'r']
  else if c.toNat < 0x20 ∨ 0x7e < c.toNat then
    if c.toNat < 0x10000 then '\\' :: 'u' :: toHex4 c.toNat
    else
      ('\\' :: 'u' :: toHex4 (0xd800 + (c.toNat - 0x10000) / 0x400)) ++
        ('\\' :: 'u' :: toHex4 (0xdc00 + (c.toNat - 0x10000) % 0x400))
  else [c]

/-- Escaping of a whole string body. -/
def escList : List Char → List Char
  | [] => []
  | c :: cs => escChar c ++ escList cs

mutual

/-- Model of `json.dumps(value, separators=(',',':'))` as a character list. -/
def dumpsVal : Json → List Char
  | Json.null => ['n', 'u', 'l', 'l']
  | Json.bool true => ['t', 'r', 'u', 'e']
  | Json.bool false => ['f', 'a', 'l', 's', 'e']
  | .num n => dumpInt n
  | .str s => '"' :: (escList s.data ++ ['"'])
  | .arr a => '[' :: (dumpsArr a ++ [']'])
  | .obj o => '{' :: (dumpsObj o ++ ['}'])

/-- Array elements joined by `','`. -/
def dumpsArr : JsonArr → List Char
  | .nil => []
  | .cons x .nil => dumpsVal x
  | .cons x (.cons y tl) => dumpsVal x ++ ',' :: dumpsArr (.cons y tl)

/-- Object entries joined by `','`. -/
def dumpsObj : JsonObj → List Char
  | .nil => []
  | .cons k v .nil => dumpsKV k v
  | .cons k v (.cons k2 v2 tl) => dumpsKV k v ++ ',' :: dumpsObj (.cons k2 v2 tl)

/-- One `"key":value` entry. -/
def dumpsKV (k : String) (v : Json) : List Char :=
  '"' :: (escList k.data ++ ('"' :: ':' :: dumpsVal v))

end

/-- Model of `json.dumps(value, separators=(',',':'))`. -/
def dumps (j : Json) : String := ⟨dumpsVal j⟩

/-! ## JSON parsing (model of `json.loads`)

The parser is strict recursive descent over the grammar produced by the
serializer above plus the other escape forms `json.loads` accepts.  Two
modelled restrictions, both irrelevant to every claim: floats are rejected
(a number followed by `'.'`/`'e'`/`'E'` parses to `none`), and inter-token
whitespace is not skipped (`dumps` with compact separators emits none). -/

/-- Simple JSON escapes accepted after a backslash. -/
def simpleEsc (c : Char) : Option Char :=
  if c = '"' then some '"'
  else if c = '\\' then some '\\'
  else if c = '/' then some '/'
  else if c = 'b' then some (Char.ofNat 8)
  else if c = 'f' then some (Char.ofNat 12)
  else if c = 'n' then some (Char.ofNat 10)
  else if c = 'r' then some (Char.ofNat 13)
  else if c = 't' then some (Char.ofNat 9)
  else none

/-- String-body parser: consumes characters up to the closing quote,
resolving escapes; `\uXXXX` high/low surrogate pairs are recombined as in
`json.loads` (a lone surrogate is rejected, since a Lean `Char` is a unicode
scalar value; serializer output never contains one).  The fuel argument only
drives the recursion: one unit per produced character. -/
def parseStrBody : Nat → List Char → Option (List Char × List Char)
  | 0, _ => none
  | _ + 1, [] => none
  | f + 1, c :: rest =>
    if c = '"' then some ([], rest)
    else if c = '\\' then
      match rest with
      | [] => none
      | e :: rest1 =>
        if e = 'u' then
          match rest1 with
          | h1 :: h2 :: h3 :: h4 :: rest2 =>
            match hexVal h1, hexVal h2, hexVal h3, hexVal h4 with
            | some a, some b, some c2, some d =>
              let v := ((a * 16 + b) * 16 + c2) * 16 + d
              if 0xd800 ≤ v ∧ v < 0xdc00 then
                match rest2 with
                | '\\' :: 'u' :: g1 :: g2 :: g3 :: g4 :: rest3 =>
                  match hexVal g1, hexVal g2, hexVal g3, hexVal g4 with
                  | some a2, some b2, some c3, some d2 =>
                    let w := ((a2 * 16 + b2) * 16 + c3) * 16 + d2
                    if 0xdc00 ≤ w ∧ w < 0xe000 then
                      match parseStrBody f rest3 with
                      | some (cs, r) =>
                        some (Char.ofNat (0x10000 + (v - 0xd800) * 0x400 + (w - 0xdc00)) :: cs, r)
                      | none => none
                    else none
                  | _, _, _, _ => none
                | _ => none
              else if 0xdc00 ≤ v ∧ v < 0xe000 then none
              else
                match parseStrBody f rest2 with
                | some (cs, r) => some (Char.ofNat v :: cs, r)
                | none => none
            | _, _, _, _ => none
          | _ => none
        else
          match simpleEsc e with
          | some c2 =>
            match parseStrBody f rest1 with
            | some (cs, r) => some (c2 :: cs, r)
            | none => none
          | none => none
    else if c.toNat < 0x20 then none
    else
      match parseStrBody f rest with
      | some (cs, r) => some (c :: cs, r)
      | none => none

/-- Digit-run accumulator of the number parser. -/
def parseDigitsAux (acc : Nat) : List Char → Nat × List Char
  | [] => (acc, [])
  | c :: rest =>
    match digVal c with
    | some d => parseDigitsAux (10 * acc + d) rest
    | none => (acc, c :: rest)

/-- Integer-part parser after an optional sign: at least one digit, no
leading zero (JSON grammar). -/
def parseNumAfterSign : List Char → Option (Nat × List Char)
  | [] => none
  | c :: rest =>
    match digVal c with
    | none => none
    | some d =>
      if c = '0' then
        match rest with
        | r :: _ => if (digVal r).isSome then none else some (0, rest)
        | [] => some (0, [])
      else some (parseDigitsAux d rest)

/-- Rejects the float continuations `'.'`, `'e'`, `'E'` after an integer. -/
def numBoundary : List Char → Bool
  | [] => true
  | c :: _ => !(c == '.' || c == 'e' || c == 'E')

/-- Single fuel-indexed recursion carrying the three mutually recursive
parsers of the `json.loads` grammar: values, array tails and object tails.
The components are named `parseVal`, `parseArrItems`, `parseObjItems` below;
a fuel unit is spent on each nesting step, so the wrapper `loads` always
supplies enough. -/
def parsers : Nat →
    (List Char → Option (Json × List Char)) ×
    (List Char → Option (JsonArr × List Char)) ×
    (List Char → Option (JsonObj × List Char))
  | 0 => (fun _ => none, fun _ => none, fun _ => none)
  | f + 1 =>
    ( fun l =>
        match l with
        | [] => none
        | c :: rest =>
          if c = 'n' then
            match rest with
            | 'u' :: 'l' :: 'l' :: r => some (.null, r)
            | _ => none
          else if c = 't' then
            match rest with
            | 'r' :: 'u' :: 'e' :: r => some (.bool true, r)
            | _ => none
          else if c = 'f' then
            match rest with
            | 'a' :: 'l' :: 's' :: 'e' :: r => some (.bool false, r)
            | _ => none
          else if c = '"' then
            match parseStrBody (f + 1) rest with
            | some (cs, r) => some (.str ⟨cs⟩, r)
            | none => none
          else if c = '[' then
            match rest with
            | ']' :: r2 => some (.arr .nil, r2)
            | _ =>
              match (parsers f).2.1 rest with
              | some (xs, r) => some (.arr xs, r)
              | none => none
          else if c = '{' then
            match rest with
            | '}' :: r2 => some (.obj .nil, r2)
            | _ =>
              match (parsers f).2.2 rest with
              | some (kvs, r) => some (.obj kvs, r)
              | none => none
          else if c = '-' then
            match parseNumAfterSign rest with
            | some (n, r) => if numBoundary r then some (.num (-(n : Int)), r) else none
            | none => none
          else if (digVal c).isSome then
            match parseNumAfterSign (c :: rest) with
            | some (n, r) => if numBoundary r then some (.num (n : Int), r) else none
            | none => none
          else none
    , fun l =>
        match (parsers f).1 l with
        | none => none
        | some (x, r) =>
          match r with
          | ',' :: r2 =>
            match (parsers f).2.1 r2 with
            | some (xs, r3) => some (.cons x xs, r3)
            | none => none
          | ']' :: r2 => some (.cons x .nil, r2)
          | _ => none
    , fun l =>
        match l with
        | '"' :: r0 =>
          match parseStrBody (f + 1) r0 with
          | none => none
          | some (kcs, r1) =>
            match r1 with
            | ':' :: r2 =>
              match (parsers f).1 r2 with
              | none => none
              | some (v, r3) =>
                match r3 with
                | ',' :: r4 =>
                  match (parsers f).2.2 r4 with
                  | some (kvs, r5) => some (.cons ⟨kcs⟩ v kvs, r5)
                  | none => none
                | '}' :: r4 => some (.cons ⟨kcs⟩ v .nil, r4)
                | _ => none
            | _ => none
        | _ => none )

/-- Value parser (model of the `json.loads` grammar); returns the parsed
value and the unconsumed input. -/
def parseVal (f : Nat) (l : List Char) : Option (Json × List Char) := (parsers f).1 l

/-- Parser for a non-empty comma-separated element list, consuming the
closing bracket. -/
def parseArrItems (f : Nat) (l : List Char) : Option (JsonArr × List Char) := (parsers f).2.1 l

/-- Parser for a non-empty comma-separated entry list, consuming the
closing brace. -/
def parseObjItems (f : Nat) (l : List Char) : Option (JsonObj × List Char) := (parsers f).2.2 l

/-- Model of `json.loads`: parse one value and require the input to be
exhausted. -/
def loads (s : String) : Option Json :=
  match parseVal (2 * s.data.length + 2) s.data with
  | some (j, []) => some j
  | _ => none

/-! ## Round trip of the number printer -/

theorem digVal_digitChar : ∀ d, d < 10 → digVal (digitChar d) = some d := by decide

theorem hexVal_toHexDig : ∀ d, d < 16 → hexVal (toHexDig d) = some d := by decide

theorem digitChar_ne_zero : ∀ d, 1 ≤ d → d < 10 → digitChar d ≠ '0' := by decide

theorem natDigsGo_eq_of_lt : ∀ f g n, n < f → n < g → natDigsGo f n = natDigsGo g n := by
  intro f
  induction f with
  | zero => intro g n h; omega
  | succ f ihf =>
    intro g n hf hg
    match g, hg with
    | g + 1, hg =>
      by_cases h : n < 10
      · simp [natDigsGo, h]
      · have hrec := ihf g (n / 10) (by omega) (by omega)
        simp [natDigsGo, h, hrec]

theorem natDigs_eq (n : Nat) :
    natDigs n = if n < 10 then [digitChar n] else natDigs (n / 10) ++ [digitChar (n % 10)] := by
  unfold natDigs
  by_cases h : n < 10
  · simp [natDigsGo, h]
  · simp [natDigsGo, h]
    exact natDigsGo_eq_of_lt n (n / 10 + 1) (n / 10) (by omega) (by omega)

theorem natDigs_cons (n : Nat) :
    ∃ d t, natDigs n = digitChar d :: t ∧ d < 10 ∧ (1 ≤ n → 1 ≤ d) := by
  induction n using Nat.strong_induction_on with
  | _ n ih =>
    rw [natDigs_eq]
    by_cases h : n < 10
    · exact ⟨n, [], by simp [h], h, fun hn => hn⟩
    · obtain ⟨d, t, hd, hdlt, hpos⟩ := ih (n / 10) (by omega)
      refine ⟨d, t ++ [digitChar (n % 10)], ?_, hdlt, fun _ => hpos (by omega)⟩
      simp [h, hd]

/-- Head-is-a-digit test on the unconsumed input. -/
def headDigit : List Char → Bool
  | [] => false
  | c :: _ => (digVal c).isSome

theorem parseDigitsAux_stop (acc : Nat) (rest : List Char) (h : headDigit rest = false) :
    parseDigitsAux acc rest = (acc, rest) := by
  cases rest with
  | nil => simp [parseDigitsAux]
  | cons c t =>
    have hnone : digVal c = none := by
      simp [headDigit, Option.isSome_iff_exists] at h
      exact h
    simp [parseDigitsAux, hnone]

theorem parseDigitsAux_digs (n : Nat) : ∀ acc rest,
    parseDigitsAux acc (natDigs n ++ rest) =
      parseDigitsAux (acc * 10 ^ (natDigs n).length + n) rest := by
  induction n using Nat.strong_induction_on with
  | _ n ih =>
    intro acc rest
    rw [natDigs_eq]
    by_cases h : n < 10
    · have e : 10 * acc + n = acc * 10 + n := by ring
      simp [h, parseDigitsAux, digVal_digitChar n h, e]
    · have ihn := ih (n / 10) (by omega) acc ([digitChar (n % 10)] ++ rest)
      have hm : digVal (digitChar (n % 10)) = some (n % 10) := digVal_digitChar _ (by omega)
      have e : acc * 10 ^ (natDigs (n / 10) ++ [digitChar (n % 10)] : List Char).length + n =
          10 * (acc * 10 ^ (natDigs (n / 10)).length + n / 10) + n % 10 := by
        simp [pow_succ]
        have hnn : n = 10 * (n / 10) + n % 10 := by omega
        ring_nf
        omega
      simp only [h, if_false, List.append_assoc]
      rw [ihn]
      simp only [List.singleton_append, parseDigitsAux, hm, e, List.append_eq, List.nil_append]

theorem parseNumAfterSign_digs (n : Nat) (rest : List Char) (h : headDigit rest = false) :
    parseNumAfterSign (natDigs n ++ rest) = some (n, rest) := by
  by_cases n0 : n = 0
  · subst n0
    have h0 : natDigs 0 = ['0'] := rfl
    rw [h0]
    have h00 : digVal '0' = some 0 := by decide
    cases rest with
    | nil => simp [parseNumAfterSign, h00]
    | cons r t =>
      have hns : (digVal r).isSome = false := by simpa [headDigit] using h
      simp [parseNumAfterSign, h00, hns]
  · obtain ⟨d, t, hd, hlt, hpos⟩ := natDigs_cons n
    have hd1 : 1 ≤ d := hpos (by omega)
    have hchain := parseDigitsAux_digs n 0 rest
    rw [hd] at hchain ⊢
    simp only [List.cons_append, parseDigitsAux, digVal_digitChar d hlt, Nat.zero_mul,
      Nat.zero_add, Nat.mul_zero, Nat.add_zero, List.append_eq] at hchain
    rw [parseDigitsAux_stop n rest h] at hchain
    have hne := digitChar_ne_zero d hd1 hlt
    simp [parseNumAfterSign, digVal_digitChar d hlt, hne, hchain]

/-! ## Round trip of the string escaper -/

theorem parseStrBody_esc (cs : List Char) : ∀ f rest, cs.length < f →
    parseStrBody f (escList cs ++ ('"' :: rest)) = some (cs, rest) := by
  induction cs with
  | nil =>
    intro f rest hf
    match f, hf with
    | f + 1, _ => simp [escList, parseStrBody]
  | cons c cs ih =>
    intro f rest hf
    match f, hf with
    | f + 1, hf =>
      have hcs : cs.length < f := by simp at hf; omega
      have ih' := ih f rest hcs
      have hv := char_valid_nat c
      by_cases h1 : c = '"'
      · subst h1
        simp [escList, escChar, parseStrBody, simpleEsc, ih']
      · by_cases h2 : c = '\\'
        · subst h2
          simp [escList, escChar, parseStrBody, simpleEsc, ih']
        · by_cases h3 : c.toNat = 8
          · have hcn : Char.ofNat 8 = c := by rw [← h3, Char.ofNat_toNat]
            simp [escList, escChar, h1, h2, h3, parseStrBody, simpleEsc, ih', hcn]
            exact hcn
          · by_cases h4 : c.toNat = 9
            · have hcn : Char.ofNat 9 = c := by rw [← h4, Char.ofNat_toNat]
              simp [escList, escChar, h1, h2, h3, h4, parseStrBody, simpleEsc, ih', hcn]
              exact hcn
            · by_cases h5 : c.toNat = 10
              · have hcn : Char.ofNat 10 = c := by rw [← h5, Char.ofNat_toNat]
                simp [escList, escChar, h1, h2, h3, h4, h5, parseStrBody, simpleEsc, ih', hcn]
                exact hcn
              · by_cases h6 : c.toNat = 12
                · have hcn : Char.ofNat 12 = c := by rw [← h6, Char.ofNat_toNat]
                  simp [escList, escChar, h1, h2, h3, h4, h5, h6, parseStrBody, simpleEsc,
                    ih', hcn]
                  exact hcn
                · by_cases h7 : c.toNat = 13
                  · have hcn : Char.ofNat 13 = c := by rw [← h7, Char.ofNat_toNat]
                    simp [escList, escChar, h1, h2, h3, h4, h5, h6, h7, parseStrBody,
                      simpleEsc, ih', hcn]
                    exact hcn
                  · by_cases h8 : c.toNat < 0x20 ∨ 0x7e < c.toNat
                    · by_cases h9 : c.toNat < 0x10000
                      · have r1 := hexVal_toHexDig (c.toNat / 4096 % 16) (by omega)
                        have r2 := hexVal_toHexDig (c.toNat / 256 % 16) (by omega)
                        have r3 := hexVal_toHexDig (c.toNat / 16 % 16) (by omega)
                        have r4 := hexVal_toHexDig (c.toNat % 16) (by omega)
                        have hev : ((c.toNat / 4096 % 16 * 16 + c.toNat / 256 % 16) * 16 +
                            c.toNat / 16 % 16) * 16 + c.toNat % 16 = c.toNat := by omega
                        have hs1 : ¬ (0xd800 ≤ c.toNat ∧ c.toNat < 0xdc00) := by omega
                        have hs2 : ¬ (0xdc00 ≤ c.toNat ∧ c.toNat < 0xe000) := by omega
                        have hcn := Char.ofNat_toNat c
                        simp [escList, escChar, h1, h2, h3, h4, h5, h6, h7, h8, h9, toHex4,
                          parseStrBody, r1, r2, r3, r4, hev, hs1, hs2, ih', hcn]
                      · obtain ⟨hi, hhi⟩ : ∃ hi, 0xd800 + (c.toNat - 0x10000) / 0x400 = hi :=
                          ⟨_, rfl⟩
                        obtain ⟨lo, hlo⟩ : ∃ lo, 0xdc00 + (c.toNat - 0x10000) % 0x400 = lo :=
                          ⟨_, rfl⟩
                        have hcb : c.toNat < 0x110000 := by omega
                        have hi1 : 0xd800 ≤ hi := by omega
                        have hi2 : hi < 0xdc00 := by omega
                        have lo1 : 0xdc00 ≤ lo := by omega
                        have lo2 : lo < 0xe000 := by omega
                        have r1 := hexVal_toHexDig (hi / 4096 % 16) (by omega)
                        have r2 := hexVal_toHexDig (hi / 256 % 16) (by omega)
                        have r3 := hexVal_toHexDig (hi / 16 % 16) (by omega)
                        have r4 := hexVal_toHexDig (hi % 16) (by omega)
                        have q1 := hexVal_toHexDig (lo / 4096 % 16) (by omega)
                        have q2 := hexVal_toHexDig (lo / 256 % 16) (by omega)
                        have q3 := hexVal_toHexDig (lo / 16 % 16) (by omega)
                        have q4 := hexVal_toHexDig (lo % 16) (by omega)
                        have hevh : ((hi / 4096 % 16 * 16 + hi / 256 % 16) * 16 +
                            hi / 16 % 16) * 16 + hi % 16 = hi := by omega
                        have hevl : ((lo / 4096 % 16 * 16 + lo / 256 % 16) * 16 +
                            lo / 16 % 16) * 16 + lo % 16 = lo := by omega
                        have hcomb : 0x10000 + (hi - 0xd800) * 0x400 + (lo - 0xdc00)
                            = c.toNat := by omega
                        have hcn := Char.ofNat_toNat c
                        simp [escList, escChar, h1, h2, h3, h4, h5, h6, h7, h8, h9, toHex4,
                          hhi, hlo, parseStrBody, r1, r2, r3, r4, q1, q2, q3, q4, hevh, hevl,
                          hi1, hi2, lo1, lo2, hcomb, ih', hcn]
                    · have h20 : ¬ c.toNat < 0x20 := by omega
                      have h126 : ¬ 0x7e < c.toNat := by omega
                      simp [escList, escChar, h1, h2, h3, h4, h5, h6, h7, h8, parseStrBody,
                        h20, h126, ih']

/-! ## Round trip of the full serializer -/

/-- Characters that may legitimately follow a serialized value: end of input
or a structural delimiter. -/
def boundaryB : List Char → Bool
  | [] => true
  | c :: _ => c == ',' || c == '}' || c == ']'

theorem boundary_headDigit (rest : List Char) (h : boundaryB rest = true) :
    headDigit rest = false := by
  cases rest with
  | nil => rfl
  | cons c t =>
    simp [boundaryB] at h
    simp [headDigit]
    rcases h with (h | h) | h <;> subst h <;> decide

theorem boundary_numBoundary (rest : List Char) (h : boundaryB rest = true) :
    numBoundary rest = true := by
  cases rest with
  | nil => rfl
  | cons c t =>
    simp [boundaryB] at h
    simp [numBoundary]
    rcases h with (h | h) | h <;> subst h <;> decide

mutual

/-- Structural size driving the parser fuel for values. -/
def sizeV : Json → Nat
  | .null => 1
  | .bool _ => 1
  | .num _ => 1
  | .str s => s.data.length + 1
  | .arr a => sizeA a + 1
  | .obj o => sizeO o + 1

/-- Structural size for array tails. -/
def sizeA : JsonArr → Nat
  | .nil => 0
  | .cons x t => sizeV x + sizeA t + 1

/-- Structural size for object tails. -/
def sizeO : JsonObj → Nat
  | .nil => 0
  | .cons k v t => k.data.length + sizeV v + sizeO t + 1

end

theorem digitChar_fallthrough : ∀ d, d < 10 →
    digitChar d ≠ 'n' ∧ digitChar d ≠ 't' ∧ digitChar d ≠ 'f' ∧ digitChar d ≠ '"' ∧
    digitChar d ≠ '[' ∧ digitChar d ≠ '{' ∧ digitChar d ≠ '-' ∧ digitChar d ≠ ']' ∧
    digitChar d ≠ '}' := by decide

theorem dumpsVal_head_ne (j : Json) :
    ∃ c t, dumpsVal j = c :: t ∧ c ≠ ']' ∧ c ≠ '}' := by
  cases j with
  | null => exact ⟨'n', ['u', 'l', 'l'], by simp [dumpsVal], by decide, by decide⟩
  | bool b =>
    cases b with
    | true => exact ⟨'t', ['r', 'u', 'e'], by simp [dumpsVal], by decide, by decide⟩
    | false => exact ⟨'f', ['a', 'l', 's', 'e'], by simp [dumpsVal], by decide, by decide⟩
  | num n =>
    by_cases hn : n < 0
    · exact ⟨'-', natDigs n.natAbs, by simp [dumpsVal, dumpInt, hn], by decide, by decide⟩
    · obtain ⟨d, t, hd, hlt, _⟩ := natDigs_cons n.toNat
      have hb := digitChar_fallthrough d hlt
      exact ⟨digitChar d, t, by simp [dumpsVal, dumpInt, hn, hd], hb.2.2.2.2.2.2.2.1,
        hb.2.2.2.2.2.2.2.2⟩
  | str s => exact ⟨'"', escList s.data ++ ['"'], by simp [dumpsVal], by decide, by decide⟩
  | arr a => exact ⟨'[', dumpsArr a ++ [']'], by simp [dumpsVal], by decide, by decide⟩
  | obj o => exact ⟨'{', dumpsObj o ++ ['}'], by simp [dumpsVal], by decide, by decide⟩

theorem escChar_length_pos (c : Char) : 1 ≤ (escChar c).length := by
  unfold escChar
  by_cases h1 : c = '"'
  · simp [h1]
  · by_cases h2 : c = '\\'
    · simp [h1, h2]
    · by_cases h3 : c.toNat = 8
      · simp [h1, h2, h3]
      · by_cases h4 : c.toNat = 9
        · simp [h1, h2, h3, h4]
        · by_cases h5 : c.toNat = 10
          · simp [h1, h2, h3, h4, h5]
          · by_cases h6 : c.toNat = 12
            · simp [h1, h2, h3, h4, h5, h6]
            · by_cases h7 : c.toNat = 13
              · simp [h1, h2, h3, h4, h5, h6, h7]
              · by_cases h8 : c.toNat < 0x20 ∨ 0x7e < c.toNat
                · by_cases h9 : c.toNat < 0x10000
                  · simp [h1, h2, h3, h4, h5, h6, h7, h8, h9, toHex4]
                  · simp [h1, h2, h3, h4, h5, h6, h7, h8, h9, toHex4]
                · simp [h1, h2, h3, h4, h5, h6, h7, h8]

theorem escList_length_ge (cs : List Char) : cs.length ≤ (escList cs).length := by
  induction cs with
  | nil => simp [escList]
  | cons c cs ih =>
    have := escChar_length_pos c
    simp only [escList, List.length_append, List.length_cons]
    omega

theorem sizeV_le_dumps (j : Json) : sizeV j ≤ (dumpsVal j).length := by
  refine @Json.rec (fun j => sizeV j ≤ (dumpsVal j).length)
    (fun a => sizeA a ≤ (dumpsArr a).length + 1)
    (fun o => sizeO o ≤ (dumpsObj o).length + 1)
    ?_ ?_ ?_ ?_ ?_ ?_ ?_ ?_ ?_ ?_ j
  · simp [sizeV, dumpsVal]
  · intro b
    cases b <;> simp [sizeV, dumpsVal]
  · intro n
    by_cases hn : n < 0
    · simp [sizeV, dumpsVal, dumpInt, hn]
    · obtain ⟨d, t, hd, _, _⟩ := natDigs_cons n.toNat
      simp [sizeV, dumpsVal, dumpInt, hn, hd]
  · intro s
    have := escList_length_ge s.data
    have hsl : s.length = s.data.length := rfl
    simp [sizeV, dumpsVal]
    omega
  · intro a iha
    simp [sizeV, dumpsVal] at iha ⊢
    omega
  · intro o iho
    simp [sizeV, dumpsVal] at iho ⊢
    omega
  · simp [sizeA, dumpsArr]
  · intro x t ihx iht
    cases t with
    | nil => simp [sizeA, dumpsArr]; omega
    | cons y t2 =>
      simp only [sizeA, dumpsArr, List.length_append, List.length_cons] at iht ⊢
      omega
  · simp [sizeO, dumpsObj]
  · intro k v t ihv iht
    have hk := escList_length_ge k.data
    cases t with
    | nil =>
      simp only [sizeO, dumpsObj, dumpsKV, List.length_append, List.length_cons] at ihv ⊢
      omega
    | cons k2 v2 t2 =>
      simp only [sizeO, dumpsObj, dumpsKV, List.length_append, List.length_cons] at ihv iht ⊢
      omega

theorem parse_dumps (f : Nat) :
    (∀ j rest, sizeV j < f → boundaryB rest = true →
      parseVal f (dumpsVal j ++ rest) = some (j, rest)) ∧
    (∀ a rest, a ≠ JsonArr.nil → sizeA a < f → boundaryB rest = true →
      parseArrItems f (dumpsArr a ++ (']' :: rest)) = some (a, rest)) ∧
    (∀ o rest, o ≠ JsonObj.nil → sizeO o < f → boundaryB rest = true →
      parseObjItems f (dumpsObj o ++ ('}' :: rest)) = some (o, rest)) := by
  induction f with
  | zero =>
    refine ⟨fun j rest hs hb => ?_, fun a rest ha hs hb => ?_, fun o rest ho hs hb => ?_⟩ <;>
      omega
  | succ f ih =>
    obtain ⟨ihP, ihQ, ihR⟩ := ih
    have fold1 : (parsers f).1 = parseVal f := rfl
    have fold2 : (parsers f).2.1 = parseArrItems f := rfl
    have fold3 : (parsers f).2.2 = parseObjItems f := rfl
    have pvs : ∀ l, parseVal (f + 1) l = (parsers (f + 1)).1 l := fun _ => rfl
    have pas : ∀ l, parseArrItems (f + 1) l = (parsers (f + 1)).2.1 l := fun _ => rfl
    have pbs : ∀ l, parseObjItems (f + 1) l = (parsers (f + 1)).2.2 l := fun _ => rfl
    refine ⟨fun j rest hs hb => ?_, fun a rest ha hs hb => ?_, fun o rest ho hs hb => ?_⟩
    · cases j with
      | null => simp [dumpsVal, pvs, parsers, fold1, fold2, fold3]
      | bool b => cases b <;> simp [dumpsVal, pvs, parsers, fold1, fold2, fold3]
      | num n =>
        have hhd := boundary_headDigit rest hb
        have hnb := boundary_numBoundary rest hb
        by_cases hn : n < 0
        · have hpn := parseNumAfterSign_digs n.natAbs rest hhd
          have habs : -|n| = n := by rw [abs_of_neg hn, neg_neg]
          rw [show dumpsVal (Json.num n) = '-' :: natDigs n.natAbs from by
            simp [dumpsVal, dumpInt, hn]]
          simp [pvs, parsers, fold1, fold2, fold3, hpn, hnb, habs]
        · obtain ⟨d, t, hd, hlt, _⟩ := natDigs_cons n.toNat
          have hft := digitChar_fallthrough d hlt
          have hpn := parseNumAfterSign_digs n.toNat rest hhd
          rw [hd] at hpn
          simp only [List.cons_append] at hpn
          have hsome : (digVal (digitChar d)).isSome = true := by
            simp [digVal_digitChar d hlt]
          have hni : ((n.toNat : Nat) : Int) = n := by omega
          simp only [dumpsVal, dumpInt, hn, if_false, hd]
          simp [pvs, parsers, fold1, fold2, fold3, hft.1, hft.2.1, hft.2.2.1,
            hft.2.2.2.1, hft.2.2.2.2.1, hft.2.2.2.2.2.1, hft.2.2.2.2.2.2.1, hsome, hpn,
            hnb, hni]
      | str s =>
        have hsd : s.length = s.data.length := rfl
        have hsb := parseStrBody_esc s.data (f + 1) rest (by simp [sizeV] at hs; omega)
        simp [dumpsVal, pvs, parsers, fold1, fold2, fold3, hsb]
      | arr a =>
        cases a with
        | nil => simp [dumpsVal, dumpsArr, pvs, parsers, fold1, fold2, fold3]
        | cons x t =>
          have hq := ihQ (.cons x t) rest (by simp) (by simp [sizeV] at hs; omega) hb
          obtain ⟨ch, ct, hch, hne1, hne2⟩ := dumpsVal_head_ne x
          have hD : ∃ D, dumpsArr (.cons x t) = ch :: D := by
            cases t with
            | nil => exact ⟨ct, by simp [dumpsArr, hch]⟩
            | cons y t2 =>
              exact ⟨ct ++ ',' :: dumpsArr (.cons y t2), by simp [dumpsArr, hch]⟩
          obtain ⟨D, hDe⟩ := hD
          rw [hDe] at hq
          simp only [List.cons_append] at hq
          simp [dumpsVal, pvs, parsers, fold1, fold2, fold3, hDe, hne1, hq]
      | obj o =>
        cases o with
        | nil => simp [dumpsVal, dumpsObj, pvs, parsers, fold1, fold2, fold3]
        | cons k v t =>
          have hr := ihR (.cons k v t) rest (by simp) (by simp [sizeV] at hs; omega) hb
          have hD : ∃ D, dumpsObj (.cons k v t) = '"' :: D := by
            cases t with
            | nil =>
              exact ⟨escList k.data ++ '"' :: ':' :: dumpsVal v, by simp [dumpsObj, dumpsKV]⟩
            | cons k2 v2 t2 =>
              exact ⟨escList k.data ++ '"' :: ':' ::
                (dumpsVal v ++ ',' :: dumpsObj (.cons k2 v2 t2)), by simp [dumpsObj, dumpsKV]⟩
          obtain ⟨D, hDe⟩ := hD
          rw [hDe] at hr
          simp only [List.cons_append] at hr
          simp [dumpsVal, pvs, parsers, fold1, fold2, fold3, hDe, hr]
    · cases a with
      | nil => exact absurd rfl ha
      | cons x t =>
        cases t with
        | nil =>
          have hp := ihP x (']' :: rest) (by simp [sizeA] at hs; omega) (by simp [boundaryB])
          simp [dumpsArr, pas, parsers, fold1, fold2, fold3, hp]
        | cons y t2 =>
          have hp := ihP x (',' :: (dumpsArr (.cons y t2) ++ (']' :: rest)))
            (by simp [sizeA] at hs; omega) (by simp [boundaryB])
          have hq := ihQ (.cons y t2) rest (by simp) (by simp [sizeA] at hs ⊢; omega) hb
          simp only [dumpsArr, List.append_assoc, List.cons_append]
          simp [pas, parsers, fold1, fold2, fold3, hp, hq]
    · cases o with
      | nil => exact absurd rfl ho
      | cons k v t =>
        cases t with
        | nil =>
          have hkd : k.length = k.data.length := rfl
          have hk := parseStrBody_esc k.data (f + 1)
            (':' :: (dumpsVal v ++ ('}' :: rest))) (by simp [sizeO] at hs; omega)
          have hp := ihP v ('}' :: rest) (by simp [sizeO] at hs; omega) (by simp [boundaryB])
          simp [dumpsObj, dumpsKV, pbs, parsers, fold1, fold2, fold3, hk, hp]
        | cons k2 v2 t2 =>
          have hkd : k.length = k.data.length := rfl
          have hk := parseStrBody_esc k.data (f + 1)
            (':' :: (dumpsVal v ++ (',' :: (dumpsObj (.cons k2 v2 t2) ++ ('}' :: rest)))))
            (by simp [sizeO] at hs; omega)
          have hp := ihP v (',' :: (dumpsObj (.cons k2 v2 t2) ++ ('}' :: rest)))
            (by simp [sizeO] at hs; omega) (by simp [boundaryB])
          have hr := ihR (.cons k2 v2 t2) rest (by simp) (by simp [sizeO] at hs ⊢; omega) hb
          simp only [dumpsObj, dumpsKV, List.append_assoc, List.cons_append]
          simp [pbs, parsers, fold1, fold2, fold3, hk, hp, hr]

theorem loads_dumps (j : Json) : loads (dumps j) = some j := by
  have hsz : sizeV j < 2 * (dumps j).data.length + 2 := by
    have := sizeV_le_dumps j
    have he : (dumps j).data = dumpsVal j := rfl
    rw [he]
    omega
  have hP := (parse_dumps (2 * (dumps j).data.length + 2)).1 j [] hsz rfl
  unfold loads
  have he : (dumps j).data = dumpsVal j := rfl
  rw [he] at hP ⊢
  simp at hP
  simp [hP]

/-! ## Token Encoder (createjwt.py lines 16-51) -/

/-- Model of `jwt_base64encode` (createjwt.py lines 28-30): UTF-8 encode,
urlsafe base64, strip `'='` padding. -/
def jwt_base64encode (s : String) : String :=
  ⟨stripEq (b64EncGroups (utf8EncodeList s.data))⟩

/-- Model of `jwt_base64decode` (createjwt.py lines 16-26): restore padding
from the length remainder (remainder 1 raises `ValueError`), base64-decode,
UTF-8 decode. -/
def jwt_base64decode (s : String) : Option String :=
  (repad s.data).bind fun l =>
    (b64DecGroups l).bind fun bs =>
      (utf8DecodeList bs).map fun cs => (⟨cs⟩ : String)

/-- The constant `UNSECURED_HEADER = {'alg': 'none'}` (createjwt.py line 32). -/
def UNSECURED_HEADER : Json := .obj (.cons "alg" (.str "none") .nil)

/-- The precomputed `UNSECURED_HEADER_ENCODED` (createjwt.py lines 33-34). -/
def UNSECURED_HEADER_ENCODED : String := jwt_base64encode (dumps UNSECURED_HEADER)

/-- Header segment chosen by `jwt_encode`: the precomputed constant when the
header argument is `None`, otherwise the encoded supplied header. -/
def headerSegment : Option Json → String
  | none => UNSECURED_HEADER_ENCODED
  | some h => jwt_base64encode (dumps h)

/-- Model of `jwt_encode` (createjwt.py lines 36-43). -/
def jwt_encode (claims : Json) (hdr : Option Json) : String :=
  headerSegment hdr ++ "." ++ jwt_base64encode (dumps claims)

/-- Model of `jwt_decode` (createjwt.py lines 45-51): split on the first `.`
(no dot means tuple unpacking raises `ValueError`, modelled as `none`), then
base64-decode and JSON-parse each segment. -/
def jwt_decode (s : String) : Option (Json × Json) :=
  match splitFirst '.' s.data with
  | none => none
  | some (hdrEnc, claimsEnc) =>
    (jwt_base64decode ⟨hdrEnc⟩).bind fun hs =>
      (loads hs).bind fun hdr =>
        (jwt_base64decode ⟨claimsEnc⟩).bind fun cs =>
          (loads cs).map fun claims => (hdr, claims)

theorem jwt_base64_roundtrip (s : String) :
    jwt_base64decode (jwt_base64encode s) = some s := by
  unfold jwt_base64encode jwt_base64decode
  have hlt := utf8EncodeList_lt s.data
  have h1 : (⟨stripEq (b64EncGroups (utf8EncodeList s.data))⟩ : String).data
      = stripEq (b64EncGroups (utf8EncodeList s.data)) := rfl
  rw [h1, repad_stripEq_enc _ hlt]
  simp [b64DecGroups_enc _ hlt, utf8DecodeList_enc]

theorem splitFirst_no_sep (sep : Char) (a b : List Char) (h : sep ∉ a) :
    splitFirst sep (a ++ sep :: b) = some (a, b) := by
  induction a with
  | nil => simp [splitFirst]
  | cons c t ih =>
    have hc : ¬ c = sep := by
      intro e
      exact h (by simp [e])
    have ht : sep ∉ t := fun m => h (by simp [m])
    simp [splitFirst, hc, ih ht]

theorem b64EncGroups_ne_dot (bs : List Nat) (h : ∀ b ∈ bs, b < 256) :
    ∀ c ∈ b64EncGroups bs, c ≠ '.' := by
  induction bs using b64EncGroups.induct with
  | case1 b0 b1 b2 rest ih =>
    have h0 : b0 < 256 := h b0 (by simp)
    have h1 : b1 < 256 := h b1 (by simp)
    have h2 : b2 < 256 := h b2 (by simp)
    have ih' := ih (fun b hb => h b (by simp [hb]))
    intro c hc
    simp only [b64EncGroups, List.mem_cons] at hc
    rcases hc with rfl | rfl | rfl | rfl | hc
    · exact b64Char_ne_dot _ (by omega)
    · exact b64Char_ne_dot _ (by omega)
    · exact b64Char_ne_dot _ (by omega)
    · exact b64Char_ne_dot _ (by omega)
    · exact ih' c hc
  | case2 b0 b1 =>
    have h0 : b0 < 256 := h b0 (by simp)
    have h1 : b1 < 256 := h b1 (by simp)
    intro c hc
    simp only [b64EncGroups, List.mem_cons] at hc
    rcases hc with rfl | rfl | rfl | rfl | hc
    · exact b64Char_ne_dot _ (by omega)
    · exact b64Char_ne_dot _ (by omega)
    · exact b64Char_ne_dot _ (by omega)
    · decide
    · simp at hc
  | case3 b0 =>
    have h0 : b0 < 256 := h b0 (by simp)
    intro c hc
    simp only [b64EncGroups, List.mem_cons] at hc
    rcases hc with rfl | rfl | rfl | rfl | hc
    · exact b64Char_ne_dot _ (by omega)
    · exact b64Char_ne_dot _ (by omega)
    · decide
    · decide
    · simp at hc
  | case4 =>
    intro c hc
    simp [b64EncGroups] at hc

theorem jwt_base64encode_no_dot (s : String) : '.' ∉ (jwt_base64encode s).data := by
  intro hmem
  have h1 : (jwt_base64encode s).data
      = stripEq (b64EncGroups (utf8EncodeList s.data)) := rfl
  rw [h1] at hmem
  have h2 : '.' ∈ b64EncGroups (utf8EncodeList s.data) := by
    unfold stripEq at hmem
    have h3 := (List.dropWhile_sublist (l := (b64EncGroups (utf8EncodeList s.data)).reverse)
      (p := fun c => c = '=')).subset
    have h4 : '.' ∈ (b64EncGroups (utf8EncodeList s.data)).reverse := h3 (by
      simpa using hmem)
    simpa using h4
  exact b64EncGroups_ne_dot _ (utf8EncodeList_lt s.data) '.' h2 rfl

theorem headerSegment_no_dot (hopt : Option Json) : '.' ∉ (headerSegment hopt).data := by
  cases hopt with
  | none => exact jwt_base64encode_no_dot (dumps UNSECURED_HEADER)
  | some h => exact jwt_base64encode_no_dot (dumps h)

theorem jwt_encode_data (c : Json) (hopt : Option Json) :
    (jwt_encode c hopt).data
      = (headerSegment hopt).data ++ '.' :: (jwt_base64encode (dumps c)).data := by
  unfold jwt_encode
  rw [String.data_append, String.data_append]
  have hdot : ("." : String).data = ['.'] := rfl
  rw [hdot]
  simp

theorem jwt_decode_two_segs (hjson cjson : Json) (hopt : Option Json)
    (hh : headerSegment hopt = jwt_base64encode (dumps hjson)) :
    jwt_decode (jwt_encode cjson hopt) = some (hjson, cjson) := by
  unfold jwt_decode
  rw [jwt_encode_data, splitFirst_no_sep _ _ _ (headerSegment_no_dot hopt), hh]
  have e1 : (⟨(jwt_base64encode (dumps hjson)).data⟩ : String)
      = jwt_base64encode (dumps hjson) := rfl
  have e2 : (⟨(jwt_base64encode (dumps cjson)).data⟩ : String)
      = jwt_base64encode (dumps cjson) := rfl
  simp only [e1, e2, jwt_base64_roundtrip, Option.bind_some, Option.some_bind]
  simp [jwt_base64_roundtrip, loads_dumps]

/-- C1: token round trip.  For every JSON value `c` and header `h`,
`jwt_decode (jwt_encode c (some h)) = (h, c)`, and with the header omitted
(`None` in the source) decoding returns the default unsecured header
`{"alg": "none"}` together with `c`. -/
theorem c1_token_roundtrip (c h : Json) :
    jwt_decode (jwt_encode c (some h)) = some (h, c) ∧
    jwt_decode (jwt_encode c none) = some (UNSECURED_HEADER, c) :=
  ⟨jwt_decode_two_segs h c (some h) rfl, jwt_decode_two_segs UNSECURED_HEADER c none rfl⟩

/-- C4: decoding a token either of whose base64url segments (as produced by
splitting on the first dot) has length `≡ 1 (mod 4)` always fails: the
padding-restoration step of `jwt_base64decode` raises `ValueError` for that
segment, so `jwt_decode` yields no result. -/
theorem c4_rem1_decode_fails (s : String) (a b : List Char)
    (hsplit : splitFirst '.' s.data = some (a, b))
    (hrem : a.length % 4 = 1 ∨ b.length % 4 = 1) :
    jwt_decode s = none := by
  unfold jwt_decode
  rw [hsplit]
  rcases hrem with h1 | h1
  · have hdec : jwt_base64decode ⟨a⟩ = none := by
      unfold jwt_base64decode repad
      have ha : (⟨a⟩ : String).data = a := rfl
      rw [ha]
      have h0 : ¬ a.length % 4 = 0 := by omega
      have h2 : ¬ a.length % 4 = 2 := by omega
      have h3 : ¬ a.length % 4 = 3 := by omega
      simp [h0, h2, h3]
    simp [hdec]
  · have hdec : jwt_base64decode ⟨b⟩ = none := by
      unfold jwt_base64decode repad
      have hb : (⟨b⟩ : String).data = b := rfl
      rw [hb]
      have h0 : ¬ b.length % 4 = 0 := by omega
      have h2 : ¬ b.length % 4 = 2 := by omega
      have h3 : ¬ b.length % 4 = 3 := by omega
      simp [h0, h2, h3]
    cases hh : jwt_base64decode ⟨a⟩ with
    | none => simp [hh]
    | some hs =>
      cases hl : loads hs with
      | none => simp [hh, hl]
      | some hdr => simp [hh, hl, hdec]

/-- C4 witness: the token `"A.AA"` has a header segment of length 1 and is
rejected by `jwt_decode`. -/
theorem c4_rem1_decode_fails_witness :
    splitFirst '.' ("A.AA" : String).data = some (['A'], ['A', 'A']) ∧
    jwt_decode "A.AA" = none := by
  constructor
  · decide
  · exact c4_rem1_decode_fails "A.AA" ['A'] ['A', 'A'] (by decide) (Or.inl (by decide))

/-- C9: a token produced by `jwt_encode` contains exactly one `'.'` — the
base64url alphabet of both segments never contains a dot — and therefore
splitting on the first `'.'` during decoding recovers exactly the original
header and claims segments. -/
theorem c9_single_dot (c : Json) (hopt : Option Json) :
    (jwt_encode c hopt).data.count '.' = 1 ∧
    splitFirst '.' (jwt_encode c hopt).data
      = some ((headerSegment hopt).data, (jwt_base64encode (dumps c)).data) := by
  constructor
  · rw [jwt_encode_data]
    rw [List.count_append, List.count_cons]
    have h1 : (headerSegment hopt).data.count '.' = 0 :=
      List.count_eq_zero.mpr (headerSegment_no_dot hopt)
    have h2 : (jwt_base64encode (dumps c)).data.count '.' = 0 :=
      List.count_eq_zero.mpr (jwt_base64encode_no_dot (dumps c))
    simp [h1, h2]
  · rw [jwt_encode_data]
    exact splitFirst_no_sep _ _ _ (headerSegment_no_dot hopt)

/-! ## Record Chunker (createjwt.py lines 14, 93-101) -/

/-- The DNS character-string bound (createjwt.py line 14). -/
def MAX_TXT_STRING_LEN : Nat := 255

/-- The chunking loop of `upload_jwt` (lines 93-99): while the remainder is
longer than the bound, slice off a prefix; a final non-empty remainder is
appended.  Python slicing counts code points, as does `List.take`.  The
source loop does not terminate when the bound is `0` (the constant is 255);
the `m = 0` guard makes the model total and is outside every claim, which
assume `1 ≤ m`. -/
def chunkList (m : Nat) (l : List Char) : List (List Char) :=
  if m = 0 then []
  else if l.length > m then l.take m :: chunkList m (l.drop m)
  else if l.isEmpty then [] else [l]
termination_by l.length
decreasing_by simp; omega

/-- Chunking on Python `str` values. -/
def chunk (s : String) (m : Nat) : List String :=
  (chunkList m s.data).map fun p => (⟨p⟩ : String)

/-- The rdata string of `upload_jwt` (line 101):
`'"' + '" "'.join(jwt_parts) + '"'`. -/
def rdataOf (parts : List String) : String :=
  "\"" ++ String.intercalate "\" \"" parts ++ "\""

theorem chunkList_join (m : Nat) (hm : 1 ≤ m) (l : List Char) :
    (chunkList m l).join = l := by
  have key : ∀ n (l : List Char), l.length ≤ n → (chunkList m l).join = l := by
    intro n
    induction n with
    | zero =>
      intro l hl
      have hnil : l = [] := List.length_eq_zero.mp (by omega)
      subst hnil
      rw [chunkList]
      have hm0 : ¬ m = 0 := by omega
      simp [hm0]
    | succ n ihn =>
      intro l hl
      rw [chunkList]
      have hm0 : ¬ m = 0 := by omega
      by_cases hlen : l.length > m
      · have hrec := ihn (l.drop m) (by simp; omega)
        simp [hm0, hlen, hrec]
      · by_cases hemp : l.isEmpty
        · simp [hm0, hlen, hemp]
          exact List.isEmpty_iff.mp hemp
        · simp [hm0, hlen, hemp]
  exact key l.length l (le_refl _)

theorem chunkList_len (m : Nat) (hm : 1 ≤ m) (l : List Char) :
    ∀ p ∈ chunkList m l, p.length ≤ m := by
  have key : ∀ n (l : List Char), l.length ≤ n → ∀ p ∈ chunkList m l, p.length ≤ m := by
    intro n
    induction n with
    | zero =>
      intro l hl p hp
      have hnil : l = [] := List.length_eq_zero.mp (by omega)
      subst hnil
      rw [chunkList] at hp
      simp at hp
    | succ n ihn =>
      intro l hl p hp
      rw [chunkList] at hp
      have hm0 : ¬ m = 0 := by omega
      by_cases hlen : l.length > m
      · simp [hm0, hlen] at hp
        rcases hp with rfl | hp
        · simp
        · exact ihn (l.drop m) (by simp; omega) p hp
      · by_cases hemp : l.isEmpty
        · simp [hm0, hlen, hemp] at hp
        · simp [hm0, hlen, hemp] at hp
          subst hp
          omega
  exact key l.length l (le_refl _)

theorem chunkList_nil (m : Nat) : chunkList m [] = [] := by
  rw [chunkList]
  by_cases hm0 : m = 0
  · simp [hm0]
  · simp [hm0]

theorem stringJoin_mk (ps : List (List Char)) :
    String.join (ps.map fun p => (⟨p⟩ : String)) = ⟨ps.join⟩ := by
  have key : ∀ (ps : List (List Char)) (acc : String),
      List.foldl (fun r s => r ++ s) acc (ps.map fun p => (⟨p⟩ : String))
        = ⟨acc.data ++ ps.join⟩ := by
    intro ps
    induction ps with
    | nil =>
      intro acc
      simp
    | cons p ps ih =>
      intro acc
      simp only [List.map_cons, List.foldl_cons, ih]
      have e : (acc ++ (⟨p⟩ : String)).data = acc.data ++ p := String.data_append acc ⟨p⟩
      rw [e]
      have e2 : (p :: ps).join = p ++ ps.join := rfl
      rw [e2, List.append_assoc]
  have h := key ps ""
  simpa [String.join] using h

/-- C3: chunking correctness.  For every string `s` and bound `m ≥ 1`, the
concatenation of `chunk s m` reproduces `s`, every chunk's length is at most
`m` (Python `len`, i.e. code points — the chunked token is ASCII so this is
also its byte length), and the empty string yields the empty chunk list. -/
theorem c3_chunking_correct (s : String) (m : Nat) (hm : 1 ≤ m) :
    String.join (chunk s m) = s ∧ (∀ p ∈ chunk s m, p.length ≤ m) ∧ chunk "" m = [] := by
  refine ⟨?_, ?_, ?_⟩
  · unfold chunk
    rw [stringJoin_mk, chunkList_join m hm]
  · intro p hp
    unfold chunk at hp
    obtain ⟨q, hq, rfl⟩ := List.mem_map.mp hp
    exact chunkList_len m hm s.data q hq
  · unfold chunk
    have he : ("" : String).data = [] := rfl
    rw [he, chunkList_nil]
    rfl

/-- C3 witness at a concrete input. -/
theorem c3_chunking_correct_witness :
    String.join (chunk "abcde" 2) = "abcde" ∧ (∀ p ∈ chunk "abcde" 2, p.length ≤ 2) ∧
      chunk "" 2 = [] :=
  c3_chunking_correct "abcde" 2 (by decide)

/-! ## Update Transmitter (dns_update.py) -/

/-- Python exception classes appearing in the modelled code paths. -/
inductive PyExc where
  | valueError (msg : String)
  | keyError (key : String)
  | typeError (msg : String)
  | assertionError (msg : String)
  | updateError (msg : String)
deriving DecidableEq, Repr

/-- Model of `dns.rcode.to_text` (dnspython) for the standard response
codes; unknown values fall back to a numeric rendering. -/
def rcodeToText (rcode : Nat) : String :=
  if rcode = 0 then "NOERROR"
  else if rcode = 1 then "FORMERR"
  else if rcode = 2 then "SERVFAIL"
  else if rcode = 3 then "NXDOMAIN"
  else if rcode = 4 then "NOTIMP"
  else if rcode = 5 then "REFUSED"
  else if rcode = 6 then "YXDOMAIN"
  else if rcode = 7 then "YXRRSET"
  else if rcode = 8 then "NXRRSET"
  else if rcode = 9 then "NOTAUTH"
  else if rcode = 10 then "NOTZONE"
  else if rcode = 16 then "BADVERS"
  else "RCODE" ++ ⟨natDigs rcode⟩

/-- Model of `send_update` (dns_update.py lines 40-50).  Message
construction, optional TSIG and the TCP exchange are abstracted into the
response's status code `responseRcode` (the result of
`dns.query.tcp(msg, server).rcode()`); the function then raises
`UpdateError` naming the code unless it is NOERROR. -/
def send_update (zone name : List String) (ttl : Nat) (rdtype : String)
    (contents : String) (server : Option String) (keyring alg : Option String)
    (responseRcode : Nat) : Except PyExc Unit :=
  if responseRcode ≠ 0 then
    .error (.updateError ("updated failed with rcode " ++ rcodeToText responseRcode))
  else .ok ()

/-- C5: the Update Transmitter succeeds iff the DNS response code is
NOERROR (0); any other response code raises `UpdateError` (the spec's
`ProtocolError`) whose message names the returned code via
`dns.rcode.to_text`, so the record is never treated as published on a
non-NOERROR response. -/
theorem c5_send_update_rcode (zone name : List String) (ttl : Nat) (rdtype : String)
    (contents : String) (server : Option String) (keyring alg : Option String)
    (rcode : Nat) :
    (send_update zone name ttl rdtype contents server keyring alg rcode = .ok () ↔
      rcode = 0) ∧
    (rcode ≠ 0 →
      send_update zone name ttl rdtype contents server keyring alg rcode =
        .error (.updateError ("updated failed with rcode " ++ rcodeToText rcode))) := by
  constructor
  · constructor
    · intro h
      by_contra hne
      simp [send_update, hne] at h
    · intro h
      simp [send_update, h]
  · intro h
    simp [send_update, h]

/-- C5 witness: with response code 3 the transmitter fails with an
`UpdateError` naming NXDOMAIN. -/
theorem c5_send_update_rcode_witness :
    send_update [""] [""] 3600 "TXT" "\"\"" (some "192.0.2.1") none none 3 =
      .error (.updateError ("updated failed with rcode " ++ rcodeToText 3)) :=
  (c5_send_update_rcode [""] [""] 3600 "TXT" "\"\"" (some "192.0.2.1") none none 3).2
    (by decide)

/-! ## Target Resolver (createjwt.py lines 53-91) -/

/-- ASCII letter test (`str.isalpha` restricted to ASCII, as used by
`urlsplit` on the first scheme character). -/
def isAsciiAlpha (c : Char) : Bool :=
  ('A' ≤ c ∧ c ≤ 'Z') ∨ ('a' ≤ c ∧ c ≤ 'z')

/-- Characters allowed in a URL scheme by `urllib.parse` (`scheme_chars`). -/
def isSchemeChar (c : Char) : Bool :=
  isAsciiAlpha c ∨ ('0' ≤ c ∧ c ≤ '9') ∨ c = '+' ∨ c = '-' ∨ c = '.'

/-- ASCII lowercasing (`str.lower` on the scheme, which is ASCII-only). -/
def lowerChar (c : Char) : Char :=
  if 'A' ≤ c ∧ c ≤ 'Z' then Char.ofNat (c.toNat + 32) else c

/-- The fields of `urllib.parse.urlparse` used by `upload_jwt`. -/
structure UrlParts where
  scheme : String
  path : String
  query : String
deriving DecidableEq, Repr

/-- The params split of `urlparse`: a `';'` suffix of the last path segment
is stripped (`_splitparams`). -/
def splitParams (p : List Char) : List Char :=
  let segs := pySplit '/' p
  match segs.getLast? with
  | none => p
  | some lastSeg =>
    match splitFirst ';' lastSeg with
    | none => p
    | some (a, _) => List.intercalate ['/'] (segs.dropLast ++ [a])

/-- Model of `urllib.parse.urlparse` restricted to the fields the source
reads (`scheme`, `path`, `query`), for URLs without a netloc (`//`), as the
`dns:` target URIs here.  Faithful to CPython `urlsplit`: the scheme is
recognised when a `':'` follows a leading ASCII letter and scheme
characters, and is normalised to lowercase; a `'#'` starts the fragment; the
first `'?'` starts the query; `urlparse` then strips `;params` from the last
path segment. -/
def urlparse (url : String) : UrlParts :=
  let u := url.data
  let schemeRest : String × List Char :=
    match List.findIdx? (fun c => c == ':') u with
    | some i =>
      if h : 0 < i ∧ (match u.head? with
          | some c0 => isAsciiAlpha c0
          | none => false) = true ∧ (u.take i).all isSchemeChar then
        (⟨(u.take i).map lowerChar⟩, u.drop (i + 1))
      else ("", u)
    | none => ("", u)
  let rest1 :=
    match splitFirst '#' schemeRest.2 with
    | some (a, _) => a
    | none => schemeRest.2
  let pathQuery : List Char × String :=
    match splitFirst '?' rest1 with
    | some (a, b) => (a, (⟨b⟩ : String))
    | none => (rest1, "")
  ⟨schemeRest.1, ⟨splitParams pathQuery.1⟩, pathQuery.2⟩

/-- Model of `dns.name.from_text`: the dot-separated labels, made absolute
by a final root label. -/
def nameFromText (s : String) : List String :=
  let ls := (pySplit '.' s.data).map fun l => (⟨l⟩ : String)
  if ls.getLast? = some "" then ls else ls ++ [""]

/-- ASCII lowercasing of a label (DNS name comparisons are
case-insensitive). -/
def lowerAscii (s : String) : String := ⟨s.data.map lowerChar⟩

/-- Model of `dns.name.Name.is_subdomain`: case-insensitive suffix test on
the label sequence. -/
def isSubdomain (name zone : List String) : Bool :=
  (zone.map lowerAscii).isSuffixOf (name.map lowerAscii)

/-- Textual rendering of a name for error messages. -/
def nameToText (n : List String) : String := String.intercalate "." n

/-- Network oracles: `get_mname_for_zone` (SOA MNAME lookup, lines 60-65)
and `get_addr_for_name` (forward resolution, lines 53-58), both returning
`None` on failure. -/
structure NetEnv where
  mname : List String → Option String
  addr : String → Option String

/-- Model of `dict(...)` over the split key-value pairs: every element must
be a two-element sequence, otherwise `dict` raises `ValueError`. -/
def pyDictPairs : List (List (List Char)) → Except PyExc (List (List Char × List Char))
  | [] => .ok []
  | it :: rest =>
    match it with
    | [k, v] => (pyDictPairs rest).map fun d => (k, v) :: d
    | _ => .error (.valueError "dictionary update sequence element has wrong length")

/-- Dict lookup: the last binding of a key wins (later `dict` insertions
overwrite earlier ones). -/
def dictFind (d : List (List Char × List Char)) (k : List Char) : Option (List Char) :=
  match d.reverse.find? (fun p => p.1 == k) with
  | some p => some p.2
  | none => none

/-- Subscription `pairs[k]`: `KeyError` when the key is absent. -/
def dictGetExc (d : List (List Char × List Char)) (k : List Char) :
    Except PyExc (List Char) :=
  match dictFind d k with
  | some v => .ok v
  | none => .error (.keyError ⟨k⟩)

/-- The pairs dictionary of `upload_jwt` (line 75):
`dict([p.split('=', maxsplit=1) for p in url2.query.split(';')])`. -/
def queryPairs (q : String) : Except PyExc (List (List Char × List Char)) :=
  pyDictPairs ((pySplit ';' q.data).map (pySplitMax1 '='))

/-- The class/type gate of `upload_jwt` (lines 75-77): build the pairs dict,
subscript `CLASS` then `TYPE`, and require the tuple `('IN', 'TXT')`. -/
def classTypeCheck (q : String) : Except PyExc Unit := do
  let pairs ← queryPairs q
  let cls ← dictGetExc pairs ("CLASS".data)
  let ty ← dictGetExc pairs ("TYPE".data)
  if ¬ (cls = "IN".data ∧ ty = "TXT".data) then
    throw (.valueError ("Incorrect class/type: " ++ q ++ "\n"))
  else
    pure ()

/-- Model of `upload_jwt` (createjwt.py lines 67-106).  The final step
models the call at lines 103-104, which passes the keyword argument
`tcp=True` although `dns_update.send_update` has no parameter of that name:
Python raises `TypeError` at the call site, before `send_update` runs, and
the surrounding handler catches only `AssertionError`, so the `TypeError`
propagates. -/
def upload_jwt (env : NetEnv) (jwt url : String) (ttl : Nat) (server : Option String)
    (zone : Option (List String)) (subzone_labels : Option Nat)
    (keyring alg : Option String) : Except PyExc Unit := do
  if zone = none ∧ subzone_labels = none then
    throw (.assertionError "zone is not None or subzone_labels is not None")
  let u := urlparse url
  if u.scheme ≠ "dns" then
    throw (.valueError ("Incorrect scheme: " ++ u.scheme ++ "\n"))
  let _ ← classTypeCheck u.query
  let name := nameFromText u.path
  let zone2 : List String ←
    match zone with
    | some z =>
      if ¬ isSubdomain name z then
        throw (.valueError ("Name out of zone: " ++ u.path ++ "\n"))
      else pure z
    | none => pure (name.drop (subzone_labels.getD 0))
  let server1 : String ←
    match server with
    | none =>
      match env.mname zone2 with
      | none => throw (.valueError ("No MNAME for zone " ++ nameToText zone2 ++ "\n"))
      | some m => pure m
    | some srv => pure srv
  let server2 := env.addr server1
  let jwt_parts := chunk jwt MAX_TXT_STRING_LEN
  let jwt_rdata := rdataOf jwt_parts
  throw (.typeError "send_update() got an unexpected keyword argument tcp")

/-! ## Publication Driver (createjwt.py lines 108-191) -/

/-- The run configuration assembled by `argparse` in `main`. -/
structure Args where
  update_dns : Bool
  subzone_labels : Option Nat
  zone : Option (List String)
  ttl : Nat
  server : Option String
  tsig : Option (String × String)
  output_file : Bool

/-- How the modelled process run ends. -/
inductive RunOutcome where
  | normal : RunOutcome
  | exited : Nat → RunOutcome
  | uncaught : PyExc → RunOutcome
deriving DecidableEq, Repr

/-- Observable effects of a run: tokens written to the output file, lines
written to stderr, and the way the process ended. -/
structure RunResult where
  tokens : List String
  errs : List String
  outcome : RunOutcome
deriving DecidableEq, Repr

/-- Last-wins lookup in a JSON object (Python dict semantics under
duplicate keys from `json.loads`). -/
def jsonObjFind : JsonObj → String → Option Json
  | .nil, _ => none
  | .cons k v t, key =>
    match jsonObjFind t key with
    | some r => some r
    | none => if k = key then some v else none

/-- Model of `claims['diem_id']` at line 187: `KeyError` when the key is
absent; a non-object or a non-string value makes the subscription or the
subsequent `urlparse` raise `TypeError`. -/
def getDiemId : Json → Except PyExc String
  | .obj kvs =>
    match jsonObjFind kvs "diem_id" with
    | some (.str s) => .ok s
    | some _ => .error (.typeError "diem_id value is not a str")
    | none => .error (.keyError "diem_id")
  | _ => .error (.typeError "claims is not subscriptable by str")

/-- The per-line loop of `main` (lines 174-188).  Only `json.loads` failures
are caught (`except ValueError`, line 178): they are reported to stderr and
the loop continues.  Any exception from `jwt_encode` (never raises),
`claims['diem_id']` or `upload_jwt` propagates and ends the run. -/
def processLines (env : NetEnv) (args : Args) (keyring alg : Option String) :
    List String → RunResult
  | [] => ⟨[], [], .normal⟩
  | line :: rest =>
    let l := pyStrip line
    match loads l with
    | none =>
      let r := processLines env args keyring alg rest
      ⟨r.tokens, ("Invalid JSON: " ++ l ++ "\n") :: r.errs, r.outcome⟩
    | some claims =>
      let jwt := jwt_encode claims none
      let toks := if args.output_file then [jwt] else []
      if args.update_dns then
        match getDiemId claims with
        | .error e => ⟨toks, [], .uncaught e⟩
        | .ok url =>
          match upload_jwt env jwt url args.ttl args.server args.zone args.subzone_labels
              keyring alg with
          | .error e => ⟨toks, [], .uncaught e⟩
          | .ok _ =>
            let r := processLines env args keyring alg rest
            ⟨toks ++ r.tokens, r.errs, r.outcome⟩
      else
        let r := processLines env args keyring alg rest
        ⟨toks ++ r.tokens, r.errs, r.outcome⟩

/-- Model of `main` (createjwt.py lines 108-188): validate the `--server`
name (lines 152-157), load the TSIG key (modelled as already parsed), check
the `--zone`/`--subzone_labels` configuration (lines 165-172, `sys.exit(1)`
before any input line is read), then run the per-line loop. -/
def mainModel (env : NetEnv) (args : Args) (lines : List String) : RunResult :=
  let serverBad :=
    match args.server with
    | some s => (env.addr s).isNone
    | none => false
  if serverBad then
    ⟨[], ["Invalid server name: " ++ args.server.getD "" ++ "\n"], .exited 1⟩
  else
    let keyringAlg : Option String × Option String :=
      match args.tsig with
      | some (k, a) => (some k, some a)
      | none => (none, none)
    if args.update_dns ∧
        ((args.zone.isSome ∧ args.subzone_labels.isSome) ∨
          (args.zone.isNone ∧ args.subzone_labels.isNone)) then
      ⟨[], ["Exactly one of --zone or --subzone_labels must be used with --update_dns.\n"],
        .exited 1⟩
    else
      processLines env args keyringAlg.1 keyringAlg.2 lines

/-! ## Error-message disambiguation helpers -/

theorem str_ne_of_take_append (p1 x p2 y : String) (n : Nat)
    (h1 : n ≤ p1.data.length) (h2 : n ≤ p2.data.length)
    (hne : p1.data.take n ≠ p2.data.take n) : ¬ (p1 ++ x = p2 ++ y) := by
  intro e
  apply hne
  have e2 : (p1 ++ x).data.take n = (p2 ++ y).data.take n := by rw [e]
  rw [String.data_append, String.data_append,
    List.take_append_of_le_length h1, List.take_append_of_le_length h2] at e2
  exact e2

theorem str_lit_ne_append (a p2 y : String) (n : Nat) (h2 : n ≤ p2.data.length)
    (hne : a.data.take n ≠ p2.data.take n) : ¬ (a = p2 ++ y) := by
  intro e
  apply hne
  have e2 : a.data.take n = (p2 ++ y).data.take n := by rw [e]
  rw [String.data_append, List.take_append_of_le_length h2] at e2
  exact e2

theorem strAppend_assoc (a b c : String) : (a ++ b) ++ c = a ++ (b ++ c) := by
  apply String.ext
  simp [String.data_append, List.append_assoc]

theorem msg_class_ne_scheme (q s : String) :
    ¬ ("Incorrect class/type: " ++ q ++ "\n" = "Incorrect scheme: " ++ s ++ "\n") := by
  intro e
  rw [strAppend_assoc, strAppend_assoc] at e
  exact str_ne_of_take_append _ _ _ _ 11 (by decide) (by decide) (by decide) e

theorem msg_zone_ne_scheme (p s : String) :
    ¬ ("Name out of zone: " ++ p ++ "\n" = "Incorrect scheme: " ++ s ++ "\n") := by
  intro e
  rw [strAppend_assoc, strAppend_assoc] at e
  exact str_ne_of_take_append _ _ _ _ 1 (by decide) (by decide) (by decide) e

theorem msg_mname_ne_scheme (z s : String) :
    ¬ ("No MNAME for zone " ++ z ++ "\n" = "Incorrect scheme: " ++ s ++ "\n") := by
  intro e
  rw [strAppend_assoc, strAppend_assoc] at e
  exact str_ne_of_take_append _ _ _ _ 1 (by decide) (by decide) (by decide) e

theorem msg_dict_ne_scheme (s : String) :
    ¬ ("dictionary update sequence element has wrong length"
        = "Incorrect scheme: " ++ s ++ "\n") := by
  intro e
  rw [strAppend_assoc] at e
  exact str_lit_ne_append _ _ _ 1 (by decide) (by decide) e

/-! ## Outcome lemmas for `upload_jwt` -/

theorem pyDictPairs_error (items : List (List (List Char))) (e : PyExc)
    (h : pyDictPairs items = .error e) :
    e = .valueError "dictionary update sequence element has wrong length" := by
  induction items with
  | nil => simp [pyDictPairs] at h
  | cons it rest ih =>
    match it with
    | [] =>
      simp [pyDictPairs] at h
      exact h.symm
    | [k] =>
      simp [pyDictPairs] at h
      exact h.symm
    | [k, v] =>
      cases hr : pyDictPairs rest with
      | error e2 =>
        simp only [pyDictPairs, hr, Except.map] at h
        have he : e2 = e := by
          cases h
          rfl
        subst he
        exact ih hr
      | ok d =>
        simp only [pyDictPairs, hr, Except.map] at h
        cases h
    | k :: v :: w :: t =>
      simp [pyDictPairs] at h
      exact h.symm

theorem classTypeCheck_dict_err (q : String) (e : PyExc)
    (hq : queryPairs q = .error e) : classTypeCheck q = .error e := by
  simp only [classTypeCheck, hq, Bind.bind, Except.bind]

theorem classTypeCheck_class_err (q : String) (d : List (List Char × List Char))
    (hq : queryPairs q = .ok d) (hc : dictFind d ("CLASS".data) = none) :
    classTypeCheck q = .error (.keyError "CLASS") := by
  simp only [classTypeCheck, hq, Bind.bind, Except.bind, dictGetExc, hc]

theorem classTypeCheck_type_err (q : String) (d : List (List Char × List Char))
    (cv : List Char) (hq : queryPairs q = .ok d)
    (hc : dictFind d ("CLASS".data) = some cv) (ht : dictFind d ("TYPE".data) = none) :
    classTypeCheck q = .error (.keyError "TYPE") := by
  simp only [classTypeCheck, hq, Bind.bind, Except.bind, dictGetExc, hc, ht]

theorem classTypeCheck_mismatch (q : String) (d : List (List Char × List Char))
    (cv tv : List Char) (hq : queryPairs q = .ok d)
    (hc : dictFind d ("CLASS".data) = some cv) (ht : dictFind d ("TYPE".data) = some tv)
    (hne : ¬ (cv = "IN".data ∧ tv = "TXT".data)) :
    classTypeCheck q = .error (.valueError ("Incorrect class/type: " ++ q ++ "\n")) := by
  simp only [classTypeCheck, hq, Bind.bind, Except.bind, dictGetExc, hc, ht]
  rw [if_pos hne]
  rfl

theorem classTypeCheck_pass (q : String) (d : List (List Char × List Char))
    (hq : queryPairs q = .ok d)
    (hc : dictFind d ("CLASS".data) = some ("IN".data))
    (ht : dictFind d ("TYPE".data) = some ("TXT".data)) :
    classTypeCheck q = .ok () := by
  simp only [classTypeCheck, hq, Bind.bind, Except.bind, dictGetExc, hc, ht]
  rw [if_neg (by simp)]
  rfl

theorem classTypeCheck_error_shapes (q : String) (e : PyExc)
    (h : classTypeCheck q = .error e) :
    e = .valueError "dictionary update sequence element has wrong length" ∨
    (∃ k, e = .keyError k) ∨
    e = .valueError ("Incorrect class/type: " ++ q ++ "\n") := by
  cases hq : queryPairs q with
  | error e2 =>
    rw [classTypeCheck_dict_err q e2 hq] at h
    have he : e2 = e := by
      cases h
      rfl
    subst he
    exact Or.inl (pyDictPairs_error _ _ hq)
  | ok d =>
    cases hc : dictFind d ("CLASS".data) with
    | none =>
      rw [classTypeCheck_class_err q d hq hc] at h
      have he := Except.error.inj h
      exact Or.inr (Or.inl ⟨"CLASS", he.symm⟩)
    | some cv =>
      cases ht : dictFind d ("TYPE".data) with
      | none =>
        rw [classTypeCheck_type_err q d cv hq hc ht] at h
        have he := Except.error.inj h
        exact Or.inr (Or.inl ⟨"TYPE", he.symm⟩)
      | some tv =>
        by_cases hm : cv = "IN".data ∧ tv = "TXT".data
        · rw [hm.1] at hc
          rw [hm.2] at ht
          rw [classTypeCheck_pass q d hq hc ht] at h
          cases h
        · rw [classTypeCheck_mismatch q d cv tv hq hc ht hm] at h
          have he := Except.error.inj h
          exact Or.inr (Or.inr he.symm)

theorem upload_scheme_err (env : NetEnv) (jwt url : String) (ttl : Nat)
    (server : Option String) (zone : Option (List String)) (subzone : Option Nat)
    (keyring alg : Option String) (hzs : ¬ (zone = none ∧ subzone = none))
    (hsch : (urlparse url).scheme ≠ "dns") :
    upload_jwt env jwt url ttl server zone subzone keyring alg
      = .error (.valueError ("Incorrect scheme: " ++ (urlparse url).scheme ++ "\n")) := by
  simp only [upload_jwt]
  rw [if_neg hzs, if_pos hsch]
  rfl

theorem upload_classType_err (env : NetEnv) (jwt url : String) (ttl : Nat)
    (server : Option String) (zone : Option (List String)) (subzone : Option Nat)
    (keyring alg : Option String) (hzs : ¬ (zone = none ∧ subzone = none))
    (hd : (urlparse url).scheme = "dns") (e : PyExc)
    (hct : classTypeCheck (urlparse url).query = .error e) :
    upload_jwt env jwt url ttl server zone subzone keyring alg = .error e := by
  simp only [upload_jwt]
  rw [if_neg hzs, if_neg (by simp [hd])]
  simp only [hct]
  rfl

theorem upload_after_gates (env : NetEnv) (jwt url : String) (ttl : Nat)
    (server : Option String) (zone : Option (List String)) (subzone : Option Nat)
    (keyring alg : Option String) (hzs : ¬ (zone = none ∧ subzone = none))
    (hd : (urlparse url).scheme = "dns")
    (hct : classTypeCheck (urlparse url).query = .ok ()) :
    upload_jwt env jwt url ttl server zone subzone keyring alg
        = .error (.valueError ("Name out of zone: " ++ (urlparse url).path ++ "\n")) ∨
    (∃ z2, upload_jwt env jwt url ttl server zone subzone keyring alg
        = .error (.valueError ("No MNAME for zone " ++ nameToText z2 ++ "\n"))) ∨
    upload_jwt env jwt url ttl server zone subzone keyring alg
        = .error (.typeError "send_update() got an unexpected keyword argument tcp") := by
  simp only [upload_jwt]
  rw [if_neg hzs, if_neg (by simp [hd])]
  simp only [hct]
  cases zone with
  | some z =>
    by_cases hsub : isSubdomain (nameFromText (urlparse url).path) z = true
    · cases server with
      | none =>
        cases hm : env.mname z with
        | none =>
          right
          left
          exact ⟨z, by simp [hsub, hm]; rfl⟩
        | some m =>
          right
          right
          simp [hsub, hm]
          rfl
      | some srv =>
        right
        right
        simp [hsub]
        rfl
    · left
      simp [hsub]
      rfl
  | none =>
    cases server with
    | none =>
      cases hm : env.mname ((nameFromText (urlparse url).path).drop (subzone.getD 0)) with
      | none =>
        right
        left
        exact ⟨(nameFromText (urlparse url).path).drop (subzone.getD 0), by simp [hm]; rfl⟩
      | some m =>
        right
        right
        simp [hm]
        rfl
    | some srv =>
      right
      right
      simp
      rfl

/-- C6 counterexample: a target URI whose scheme differs from `dns` only in
letter case is NOT rejected by the scheme gate — it passes every Target
Resolver check and reaches the send step (whose `tcp=True` call-site
`TypeError` shows it got that far). -/
theorem c6_scheme_case_counterexample :
    upload_jwt ⟨fun _ => some "ns.example", fun _ => some "192.0.2.1"⟩ "t"
      "DNS:a.example?CLASS=IN;TYPE=TXT" 3600 (some "203.0.113.1")
      (some (nameFromText "a.example")) none none none
      = .error (.typeError "send_update() got an unexpected keyword argument tcp") := rfl

/-- C6 amended: the Target Resolver rejects a URI with the invalid-scheme
`ValueError` exactly when the `urlparse`-normalised scheme — CPython
lowercases it — differs from `"dns"`.  The comparison is exact on the
normalised scheme, so a URI whose scheme differs from `dns` only in ASCII
case is accepted. -/
theorem c6_scheme_gate_amended (env : NetEnv) (jwt url : String) (ttl : Nat)
    (server : Option String) (zone : Option (List String)) (subzone : Option Nat)
    (keyring alg : Option String) (hzs : ¬ (zone = none ∧ subzone = none)) :
    upload_jwt env jwt url ttl server zone subzone keyring alg
        = .error (.valueError ("Incorrect scheme: " ++ (urlparse url).scheme ++ "\n"))
      ↔ (urlparse url).scheme ≠ "dns" := by
  constructor
  · intro h
    by_contra hdd
    have hd : (urlparse url).scheme = "dns" := hdd
    cases hct : classTypeCheck (urlparse url).query with
    | error e =>
      have hres := upload_classType_err env jwt url ttl server zone subzone keyring alg
        hzs hd e hct
      rw [h] at hres
      have he : PyExc.valueError ("Incorrect scheme: " ++ (urlparse url).scheme ++ "\n")
          = e := by
        cases hres
        rfl
      rcases classTypeCheck_error_shapes _ _ hct with h1 | ⟨k, h1⟩ | h1
      · rw [h1] at he
        have := PyExc.valueError.inj he
        exact msg_dict_ne_scheme _ this.symm
      · rw [h1] at he
        cases he
      · rw [h1] at he
        have := PyExc.valueError.inj he
        exact msg_class_ne_scheme _ _ this.symm
    | ok u =>
      cases u
      rcases upload_after_gates env jwt url ttl server zone subzone keyring alg
          hzs hd hct with h1 | ⟨z2, h1⟩ | h1
      · rw [h] at h1
        have he := Except.error.inj h1
        have := PyExc.valueError.inj he
        exact msg_zone_ne_scheme _ _ this.symm
      · rw [h] at h1
        have he := Except.error.inj h1
        have := PyExc.valueError.inj he
        exact msg_mname_ne_scheme _ _ this.symm
      · rw [h] at h1
        have he := Except.error.inj h1
        cases he
  · intro hsch
    exact upload_scheme_err env jwt url ttl server zone subzone keyring alg hzs hsch

/-- C6 amended witness: a URI with scheme `foo` is rejected with the
invalid-scheme error. -/
theorem c6_scheme_gate_amended_witness :
    upload_jwt ⟨fun _ => some "ns.example", fun _ => some "192.0.2.1"⟩ "t"
      "foo:a.example?CLASS=IN;TYPE=TXT" 3600 (some "203.0.113.1")
      (some (nameFromText "a.example")) none none none
      = .error (.valueError ("Incorrect scheme: "
          ++ (urlparse "foo:a.example?CLASS=IN;TYPE=TXT").scheme ++ "\n")) :=
  (c6_scheme_gate_amended ⟨fun _ => some "ns.example", fun _ => some "192.0.2.1"⟩ "t"
    "foo:a.example?CLASS=IN;TYPE=TXT" 3600 (some "203.0.113.1")
    (some (nameFromText "a.example")) none none none
    (by simp)).mpr (by decide)

/-- C7 counterexample: a target URI whose query lacks the `CLASS` key is
rejected with `KeyError` (the bare `pairs['CLASS']` subscription), not with
the invalid-target `ValueError` the resolver uses for a class/type
mismatch. -/
theorem c7_missing_class_counterexample :
    upload_jwt ⟨fun _ => some "ns.example", fun _ => some "192.0.2.1"⟩ "t"
      "dns:a.example?TYPE=TXT" 3600 (some "203.0.113.1")
      (some (nameFromText "a.example")) none none none
      = .error (.keyError "CLASS")
    ∧ ∀ m : String, PyExc.keyError "CLASS" ≠ PyExc.valueError m :=
  ⟨rfl, fun m h => PyExc.noConfusion h⟩

/-- C7 amended: with the pairs dictionary built from the query, a missing
`CLASS` key fails with `KeyError CLASS`, a present `CLASS` but missing
`TYPE` fails with `KeyError TYPE`, and both present but not equal to
`(IN, TXT)` fails with the invalid-target `ValueError` naming the query;
only the last case carries the invalid-target error. -/
theorem c7_class_type_gate_amended (env : NetEnv) (jwt url : String) (ttl : Nat)
    (server : Option String) (zone : Option (List String)) (subzone : Option Nat)
    (keyring alg : Option String) (d : List (List Char × List Char))
    (hzs : ¬ (zone = none ∧ subzone = none))
    (hsch : (urlparse url).scheme = "dns")
    (hq : queryPairs (urlparse url).query = .ok d) :
    (dictFind d ("CLASS".data) = none →
      upload_jwt env jwt url ttl server zone subzone keyring alg
        = .error (.keyError "CLASS")) ∧
    (∀ cv, dictFind d ("CLASS".data) = some cv → dictFind d ("TYPE".data) = none →
      upload_jwt env jwt url ttl server zone subzone keyring alg
        = .error (.keyError "TYPE")) ∧
    (∀ cv tv, dictFind d ("CLASS".data) = some cv → dictFind d ("TYPE".data) = some tv →
      ¬ (cv = "IN".data ∧ tv = "TXT".data) →
      upload_jwt env jwt url ttl server zone subzone keyring alg
        = .error (.valueError ("Incorrect class/type: " ++ (urlparse url).query ++ "\n"))) := by
  refine ⟨fun hc => ?_, fun cv hc ht => ?_, fun cv tv hc ht hne => ?_⟩
  · exact upload_classType_err env jwt url ttl server zone subzone keyring alg hzs hsch _
      (classTypeCheck_class_err _ d hq hc)
  · exact upload_classType_err env jwt url ttl server zone subzone keyring alg hzs hsch _
      (classTypeCheck_type_err _ d cv hq hc ht)
  · exact upload_classType_err env jwt url ttl server zone subzone keyring alg hzs hsch _
      (classTypeCheck_mismatch _ d cv tv hq hc ht hne)

/-- C7 amended witness: `CLASS=IN;TYPE=A` is rejected with the
invalid-target error naming the query. -/
theorem c7_class_type_gate_amended_witness :
    upload_jwt ⟨fun _ => some "ns.example", fun _ => some "192.0.2.1"⟩ "t"
      "dns:a.example?CLASS=IN;TYPE=A" 3600 (some "203.0.113.1")
      (some (nameFromText "a.example")) none none none
      = .error (.valueError ("Incorrect class/type: "
          ++ (urlparse "dns:a.example?CLASS=IN;TYPE=A").query ++ "\n")) :=
  (c7_class_type_gate_amended ⟨fun _ => some "ns.example", fun _ => some "192.0.2.1"⟩ "t"
    "dns:a.example?CLASS=IN;TYPE=A" 3600 (some "203.0.113.1")
    (some (nameFromText "a.example")) none none none
    [("CLASS".data, "IN".data), ("TYPE".data, "A".data)]
    (by simp) rfl rfl).2.2 ("IN".data) ("A".data) rfl rfl (by decide)

/-- C8: when publication is requested and the explicit zone and the
label-strip count are both supplied or both absent, the run exits with
status 1, writes no token, and its result does not depend on the input
lines at all — the configuration check precedes the per-record loop. -/
theorem c8_config_check_fatal (env : NetEnv) (args : Args) (lines : List String)
    (hupd : args.update_dns = true)
    (hz : args.zone.isSome = args.subzone_labels.isSome) :
    (mainModel env args lines).tokens = []
    ∧ (mainModel env args lines).outcome = .exited 1
    ∧ mainModel env args lines = mainModel env args [] := by
  have key : ∀ ls : List String, mainModel env args ls =
      (if (match args.server with
           | some s => (env.addr s).isNone
           | none => false) = true
       then ⟨[], ["Invalid server name: " ++ args.server.getD "" ++ "\n"], .exited 1⟩
       else ⟨[],
         ["Exactly one of --zone or --subzone_labels must be used with --update_dns.\n"],
         .exited 1⟩) := by
    intro ls
    simp only [mainModel]
    split
    · rfl
    · have hcond : args.update_dns = true ∧
          ((args.zone.isSome = true ∧ args.subzone_labels.isSome = true) ∨
            (args.zone.isNone = true ∧ args.subzone_labels.isNone = true)) := by
        refine ⟨hupd, ?_⟩
        cases hco : args.zone with
        | some v =>
          have hss : args.subzone_labels.isSome = true := by rw [← hz, hco]; rfl
          exact Or.inl ⟨rfl, hss⟩
        | none =>
          have hsn : args.subzone_labels.isSome = false := by rw [← hz, hco]; rfl
          refine Or.inr ⟨rfl, ?_⟩
          cases hso : args.subzone_labels with
          | none => rfl
          | some v =>
            rw [hso] at hsn
            exact absurd hsn (by simp)
      rw [if_pos hcond]
  refine ⟨?_, ?_, (key lines).trans (key []).symm⟩
  · rw [key lines]
    split <;> rfl
  · rw [key lines]
    split <;> rfl

/-- C8 witness: requesting publication with both a zone and a label-strip
count exits with status 1 before the (non-empty) input is touched. -/
theorem c8_config_check_fatal_witness :
    (mainModel ⟨fun _ => some "ns.example", fun _ => some "192.0.2.1"⟩
        ⟨true, some 1, some (nameFromText "example"), 3600, none, none, true⟩
        ["\x7b\"a\":1\x7d"]).tokens = []
    ∧ (mainModel ⟨fun _ => some "ns.example", fun _ => some "192.0.2.1"⟩
        ⟨true, some 1, some (nameFromText "example"), 3600, none, none, true⟩
        ["\x7b\"a\":1\x7d"]).outcome = .exited 1
    ∧ mainModel ⟨fun _ => some "ns.example", fun _ => some "192.0.2.1"⟩
        ⟨true, some 1, some (nameFromText "example"), 3600, none, none, true⟩
        ["\x7b\"a\":1\x7d"]
      = mainModel ⟨fun _ => some "ns.example", fun _ => some "192.0.2.1"⟩
        ⟨true, some 1, some (nameFromText "example"), 3600, none, none, true⟩ [] :=
  c8_config_check_fatal ⟨fun _ => some "ns.example", fun _ => some "192.0.2.1"⟩
    ⟨true, some 1, some (nameFromText "example"), 3600, none, none, true⟩
    ["\x7b\"a\":1\x7d"] rfl rfl

/-- C2 counterexample: with DNS publication on, a record whose target URI
has a bad scheme raises an uncaught `ValueError` that ends the run — the
following record is never processed (the result over two lines equals the
result over the first line alone), although that second record on its own
produces a token. -/
theorem c2_abort_counterexample :
    mainModel ⟨fun _ => some "ns.example", fun _ => some "192.0.2.1"⟩
        ⟨true, none, some (nameFromText "example"), 3600, some "203.0.113.1", none, true⟩
        ["\x7b\"diem_id\":\"foo:bar\"\x7d", "\x7b\"a\":1\x7d"]
      = mainModel ⟨fun _ => some "ns.example", fun _ => some "192.0.2.1"⟩
        ⟨true, none, some (nameFromText "example"), 3600, some "203.0.113.1", none, true⟩
        ["\x7b\"diem_id\":\"foo:bar\"\x7d"]
    ∧ (mainModel ⟨fun _ => some "ns.example", fun _ => some "192.0.2.1"⟩
        ⟨true, none, some (nameFromText "example"), 3600, some "203.0.113.1", none, true⟩
        ["\x7b\"diem_id\":\"foo:bar\"\x7d", "\x7b\"a\":1\x7d"]).outcome
      = .uncaught (.valueError ("Incorrect scheme: foo\n"))
    ∧ (mainModel ⟨fun _ => some "ns.example", fun _ => some "192.0.2.1"⟩
        ⟨false, none, none, 3600, none, none, true⟩
        ["\x7b\"a\":1\x7d"]).tokens ≠ [] :=
  ⟨rfl, rfl, by decide⟩

/-- C2 amended: only `json.loads` failures are isolated — an unparsable
line is reported to stderr and processing continues with the rest — while
a failure from the upload stage (target resolution, chunking or
transmission, all raised inside `upload_jwt`) propagates uncaught and ends
the run, dropping every later record. -/
theorem c2_isolation_amended (env : NetEnv) (args : Args) (keyring alg : Option String)
    (line : String) (rest : List String) :
    (loads (pyStrip line) = none →
      processLines env args keyring alg (line :: rest) =
        ⟨(processLines env args keyring alg rest).tokens,
         ("Invalid JSON: " ++ pyStrip line ++ "\n")
           :: (processLines env args keyring alg rest).errs,
         (processLines env args keyring alg rest).outcome⟩) ∧
    (∀ claims url e, loads (pyStrip line) = some claims →
      args.update_dns = true →
      getDiemId claims = .ok url →
      upload_jwt env (jwt_encode claims none) url args.ttl args.server args.zone
          args.subzone_labels keyring alg = .error e →
      processLines env args keyring alg (line :: rest) =
        ⟨if args.output_file then [jwt_encode claims none] else [], [], .uncaught e⟩) := by
  constructor
  · intro h
    simp [processLines, h]
  · intro claims url e h1 h2 h3 h4
    simp [processLines, h1, h2, h3, h4]

/-- C2 amended witness: an unparsable line is reported and the (empty)
rest still runs to a normal end. -/
theorem c2_isolation_amended_witness :
    processLines ⟨fun _ => some "ns.example", fun _ => some "192.0.2.1"⟩
        ⟨true, none, some (nameFromText "example"), 3600, some "203.0.113.1", none, true⟩
        none none ["@@"]
      = ⟨[], ["Invalid JSON: @@\n"], .normal⟩ :=
  (c2_isolation_amended ⟨fun _ => some "ns.example", fun _ => some "192.0.2.1"⟩
    ⟨true, none, some (nameFromText "example"), 3600, some "203.0.113.1", none, true⟩
    none none "@@" []).1 rfl

/-- C10: for the empty token the chunk loop yields no parts and the rdata
built from them is the two-character string of two double quotes — but the
update is never submitted: the `send_update` call passes the keyword
argument `tcp`, which `send_update` does not accept, so Python raises
`TypeError` at the call site and only `AssertionError` is caught. -/
theorem c10_empty_token_no_update :
    chunk "" MAX_TXT_STRING_LEN = []
    ∧ rdataOf [] = "\"\""
    ∧ upload_jwt ⟨fun _ => some "ns.example", fun _ => some "192.0.2.1"⟩ ""
        "dns:a.example?CLASS=IN;TYPE=TXT" 3600 (some "203.0.113.1")
        (some (nameFromText "a.example")) none none none
      = .error (.typeError "send_update() got an unexpected keyword argument tcp") := by
  refine ⟨?_, by decide, rfl⟩
  simp [chunk, chunkList_nil]

end Diem
